import Mathlib

/-!
# MacroMe "Macro Tetris" engine — verification development

Shallow embedding of the meal-planning engine in `src/lib/macroTetris.ts`.
JavaScript numbers are modelled as exact rationals (`ℚ`); the integer-valued
primitives `Math.floor`, `Math.ceil` and `Math.round` are modelled with
`Int.floor`, `Int.ceil` and Mathlib's `round` (`round x = ⌊x + 1/2⌋`, which
agrees with JS `Math.round`).  The `Infinity` sentinel used by
`calculateAvailableServings` is modelled with `WithTop ℤ`.  JS division by
zero (which yields `±Infinity` on the guaranteed-positive numerators of the
`servingsNeeded` computations) is spelled out as an explicit case; division
by a zero target in the accuracy summary is only considered under the
positive-target hypotheses of the theorems below.  `Math.random()` draws are
passed in as explicit rational parameters, and the two database-free halves
of `generatePlan` (target derivation and the five planning stages) are
composed into the pure function `generatePlanPure`.
-/

namespace MacroTetris

/-- An `ingredients` row: name and per-100-unit nutrition facts. -/
structure Nutrition where
  name : String
  kcal : ℚ
  protein : ℚ
  carbs : ℚ
  fat : ℚ
  deriving DecidableEq

/-- A `recipe_ingredients` row joined with its `ingredients` row. -/
structure RecipeIngredient where
  ingredient_id : ℕ
  quantity : ℚ
  unit : String
  ingredients : Nutrition
  deriving DecidableEq

/-- A `recipes` row joined with its ingredient requirements. -/
structure Recipe where
  id : ℕ
  recipe_ingredients : List RecipeIngredient
  deriving DecidableEq

/-- A `pantry_items` row (only the fields the engine reads). -/
structure PantryItem where
  ingredient_id : ℕ
  quantity : ℚ
  deriving DecidableEq

/-- `MacroProfile` from `macroTetris.ts`. -/
structure MacroProfile where
  calories : ℚ
  protein : ℚ
  carbs : ℚ
  fat : ℚ
  deriving DecidableEq

/-- `RecipeWithMacros`: a recipe extended with its computed macro profile,
protein density and pantry availability. -/
structure RecipeWithMacros where
  id : ℕ
  recipe_ingredients : List RecipeIngredient
  macros : MacroProfile
  proteinDensity : ℚ
  availableServings : ℤ
  deriving DecidableEq

/-- One element of the `selectedRecipes` arrays threaded through the stages:
a (recipe, servings, day, slot) assignment. -/
structure Selection where
  recipe : RecipeWithMacros
  servings : ℤ
  day : ℤ
  slot : String
  deriving DecidableEq

/-- `calculateRecipeMacros`: accumulate `nutrition × quantity / 100` over the
requirements, then `Math.round` each field. -/
def calculateRecipeMacros (recipe : Recipe) : MacroProfile :=
  let totals : MacroProfile :=
    recipe.recipe_ingredients.foldl
      (fun acc ingredient =>
        { calories := acc.calories + ingredient.ingredients.kcal * ingredient.quantity / 100
          protein := acc.protein + ingredient.ingredients.protein * ingredient.quantity / 100
          carbs := acc.carbs + ingredient.ingredients.carbs * ingredient.quantity / 100
          fat := acc.fat + ingredient.ingredients.fat * ingredient.quantity / 100 })
      ⟨0, 0, 0, 0⟩
  { calories := (round totals.calories : ℤ)
    protein := (round totals.protein : ℤ)
    carbs := (round totals.carbs : ℤ)
    fat := (round totals.fat : ℤ) }

/-- One step of the `forEach` loop in `calculateAvailableServings`: a missing
pantry item assigns `maxServings = 0`; otherwise
`maxServings = min maxServings ⌊available / required⌋`. -/
def availStep (pantryItems : List PantryItem) (maxServings : WithTop ℤ)
    (recipeIngredient : RecipeIngredient) : WithTop ℤ :=
  match pantryItems.find? (fun p => decide (p.ingredient_id = recipeIngredient.ingredient_id)) with
  | none => (0 : WithTop ℤ)
  | some pantryItem =>
      min maxServings ((⌊pantryItem.quantity / recipeIngredient.quantity⌋ : ℤ) : WithTop ℤ)

/-- `calculateAvailableServings`: fold `availStep` from `Infinity` (`⊤`), then
map the `Infinity` sentinel back to `0` (`maxServings === Infinity ? 0 :
maxServings` in the source). -/
def calculateAvailableServings (recipe : Recipe) (pantryItems : List PantryItem) : ℤ :=
  (recipe.recipe_ingredients.foldl (availStep pantryItems) ⊤).untop' 0

/-- `sortByProteinDensity`: drop recipes without availability, then stable-sort
descending by protein density (JS `Array.prototype.sort` is stable; a stable
sort by the comparator `b.proteinDensity - a.proteinDensity` is insertion sort
with the relation `b.proteinDensity ≤ a.proteinDensity`). -/
def sortByProteinDensity (recipes : List RecipeWithMacros) : List RecipeWithMacros :=
  (recipes.filter (fun r => decide (0 < r.availableServings))).insertionSort
    (fun a b => b.proteinDensity ≤ a.proteinDensity)

/-- The meal-slot cursor cycle of the greedy stage. -/
def mealSlots : List String := ["breakfast", "lunch", "dinner"]

/-- The daily macro gap `Math.max(0, target - current / daysInWeek)` shared by
the greedy stage and the gap filler. -/
def dailyGap (target current : ℚ) (daysInWeek : ℕ) : ℚ :=
  max 0 (target - current / (daysInWeek : ℚ))

/-- `Math.min(Math.ceil(gap / grams), availableServings, cap)` as both serving
clamps compute it (`cap` is 3 in the greedy stage, 2 in the gap filler).
With `grams = 0` the JS quotient of the strictly positive gap is `Infinity`,
so the ceiling drops out of the minimum; that case is spelled out. -/
def clampServings (gap grams : ℚ) (avail cap : ℤ) : ℤ :=
  if grams = 0 then min avail cap
  else min ⌈gap / grams⌉ (min avail cap)

/-- The loop body of `greedyProteinFill`, recursing over the sorted recipe
list with the `selectedRecipes`, `currentMacros`, `currentDay` and
`currentSlot` state.  `Math.ceil(gap / protein)` with `protein = 0` is JS
`Infinity` (the gap is strictly positive past the break), so the subsequent
`Math.min(·, availableServings, 3)` degenerates to `min availableServings 3`;
that case is spelled out explicitly. -/
def greedyGo (dailyTargets : MacroProfile) (daysInWeek : ℕ) :
    List RecipeWithMacros → List Selection → MacroProfile → ℕ → ℕ →
    List Selection × MacroProfile
  | [], selectedRecipes, currentMacros, _, _ => (selectedRecipes, currentMacros)
  | recipe :: rest, selectedRecipes, currentMacros, currentDay, currentSlot =>
    let dailyProteinNeeded : ℚ := dailyGap dailyTargets.protein currentMacros.protein daysInWeek
    if dailyProteinNeeded ≤ 0 then (selectedRecipes, currentMacros)
    else
      let servingsToAdd : ℤ :=
        clampServings dailyProteinNeeded recipe.macros.protein recipe.availableServings 3
      if 0 < servingsToAdd then
        greedyGo dailyTargets daysInWeek rest
          (selectedRecipes ++
            [{ recipe := recipe
               servings := servingsToAdd
               day := ((currentDay % daysInWeek : ℕ) : ℤ)
               slot := mealSlots.getD (currentSlot % mealSlots.length) "" }])
          { calories := currentMacros.calories + recipe.macros.calories * servingsToAdd
            protein := currentMacros.protein + recipe.macros.protein * servingsToAdd
            carbs := currentMacros.carbs + recipe.macros.carbs * servingsToAdd
            fat := currentMacros.fat + recipe.macros.fat * servingsToAdd }
          (if (currentSlot + 1) % mealSlots.length = 0 then currentDay + 1 else currentDay)
          (currentSlot + 1)
      else
        greedyGo dailyTargets daysInWeek rest selectedRecipes currentMacros currentDay currentSlot

/-- `greedyProteinFill`: sort by protein density, then run the greedy loop
from an empty selection and zero accumulator. -/
def greedyProteinFill (recipes : List RecipeWithMacros) (dailyTargets : MacroProfile)
    (daysInWeek : ℕ) : List Selection × MacroProfile :=
  greedyGo dailyTargets daysInWeek (sortByProteinDensity recipes) [] ⟨0, 0, 0, 0⟩ 0 0

/-- The shared "add one snack for this macro gap" block of
`fillRemainingMacros` (once for carbs, once for fat): take the head of the
density-sorted candidate list, compute
`Math.min(Math.ceil(gap / grams), availableServings, 2)` and, if positive,
emit one snack at day `Math.floor(rand * daysInWeek)`.  As in the greedy
stage, `Math.ceil` of a division by zero grams (JS `Infinity`) is spelled
out. -/
def snackFor (gap : ℚ) (grams : RecipeWithMacros → ℚ) (rand : ℚ) (daysInWeek : ℕ) :
    List RecipeWithMacros → List Selection
  | [] => []
  | recipe :: _ =>
    if 0 < gap then
      let servingsNeeded : ℤ :=
        clampServings gap (grams recipe) recipe.availableServings 2
      if 0 < servingsNeeded then
        [{ recipe := recipe, servings := servingsNeeded
           day := ⌊rand * (daysInWeek : ℚ)⌋, slot := "snack" }]
      else []
    else []

/-- `fillRemainingMacros`: append at most one carb-leaning and one fat-leaning
snack.  `rand1` and `rand2` are the two `Math.random()` draws used for the
day choices. -/
def fillRemainingMacros (recipes : List RecipeWithMacros) (selectedRecipes : List Selection)
    (currentMacros : MacroProfile) (dailyTargets : MacroProfile)
    (rand1 rand2 : ℚ) (daysInWeek : ℕ) : List Selection :=
  let usedRecipeIds : List ℕ := selectedRecipes.map (fun s => s.recipe.id)
  let availableRecipes : List RecipeWithMacros := recipes.filter
    (fun r => (!(usedRecipeIds.any (fun i => decide (i = r.id)))) && decide (0 < r.availableServings))
  let carbRichRecipes : List RecipeWithMacros :=
    (availableRecipes.filter (fun r => decide (r.macros.fat < r.macros.carbs))).insertionSort
      (fun a b => b.macros.carbs / b.macros.calories ≤ a.macros.carbs / a.macros.calories)
  let fatRichRecipes : List RecipeWithMacros :=
    (availableRecipes.filter (fun r => decide (r.macros.carbs < r.macros.fat))).insertionSort
      (fun a b => b.macros.fat / b.macros.calories ≤ a.macros.fat / a.macros.calories)
  selectedRecipes
    ++ snackFor (dailyGap dailyTargets.carbs currentMacros.carbs daysInWeek)
      (fun r => r.macros.carbs) rand1 daysInWeek carbRichRecipes
    ++ snackFor (dailyGap dailyTargets.fat currentMacros.fat daysInWeek)
      (fun r => r.macros.fat) rand2 daysInWeek fatRichRecipes

/-- The `weeklyMacros` accumulation step of `fineTuneMacros`. -/
def accumulateMacros (acc : MacroProfile) (selection : Selection) : MacroProfile :=
  { calories := acc.calories + selection.recipe.macros.calories * (selection.servings : ℚ)
    protein := acc.protein + selection.recipe.macros.protein * (selection.servings : ℚ)
    carbs := acc.carbs + selection.recipe.macros.carbs * (selection.servings : ℚ)
    fat := acc.fat + selection.recipe.macros.fat * (selection.servings : ℚ) }

/-- `fineTuneMacros`: recompute the weekly accumulator, derive the daily
average, and scale every selection by 0.8 / 0.9 when the relative calorie
deviation exceeds 50% / 15%, with `Math.round` and a floor of one serving. -/
def fineTuneMacros (selectedRecipes : List Selection) (dailyTargets : MacroProfile)
    (daysInWeek : ℕ) : List Selection :=
  let weeklyMacros : MacroProfile := selectedRecipes.foldl accumulateMacros ⟨0, 0, 0, 0⟩
  let dailyMacros : MacroProfile :=
    { calories := weeklyMacros.calories / (daysInWeek : ℚ)
      protein := weeklyMacros.protein / (daysInWeek : ℚ)
      carbs := weeklyMacros.carbs / (daysInWeek : ℚ)
      fat := weeklyMacros.fat / (daysInWeek : ℚ) }
  selectedRecipes.map (fun selection =>
    let calorieAccuracy : ℚ :=
      |dailyMacros.calories - dailyTargets.calories| / dailyTargets.calories
    if 0.15 < calorieAccuracy then
      let scaleFactor : ℚ := if 0.5 < calorieAccuracy then 0.8 else 0.9
      { selection with servings := max 1 (round ((selection.servings : ℚ) * scaleFactor)) }
    else selection)

/-- An entry of the `ingredientNeeds` map in `calculateMissingIngredients`
(JS `Map` iteration follows insertion order, so the map is modelled as an
association list that appends fresh keys at the end). -/
structure NeedEntry where
  key : ℕ
  needed : ℚ
  unit : String
  name : String
  available : ℚ
  deriving DecidableEq

/-- The pantry quantity-on-hand for an ingredient id
(`pantryItem?.quantity || 0`: 0 when the ingredient is absent). -/
def pantryQty (pantryItems : List PantryItem) (k : ℕ) : ℚ :=
  match pantryItems.find? (fun p => decide (p.ingredient_id = k)) with
  | some p => p.quantity
  | none => 0

/-- Processing one (requirement, servings) pair of the nested `forEach` in
`calculateMissingIngredients`: accumulate into the existing entry, or append
a fresh entry whose `available` is the pantry quantity (0 when absent). -/
def needsStep (pantryItems : List PantryItem) (acc : List NeedEntry)
    (pr : RecipeIngredient × ℤ) : List NeedEntry :=
  let totalNeeded : ℚ := pr.1.quantity * (pr.2 : ℚ)
  if acc.any (fun e => decide (e.key = pr.1.ingredient_id)) then
    acc.map (fun e =>
      if e.key = pr.1.ingredient_id then { e with needed := e.needed + totalNeeded } else e)
  else
    acc ++ [{ key := pr.1.ingredient_id
              needed := totalNeeded
              unit := pr.1.unit
              name := pr.1.ingredients.name
              available := pantryQty pantryItems pr.1.ingredient_id }]

/-- The `ingredientNeeds` map after both `forEach` loops. -/
def ingredientNeeds (selectedRecipes : List Selection)
    (pantryItems : List PantryItem) : List NeedEntry :=
  selectedRecipes.foldl
    (fun acc selection =>
      selection.recipe.recipe_ingredients.foldl
        (fun a ingredient => needsStep pantryItems a (ingredient, selection.servings)) acc)
    []

/-- One element of the `missingIngredients` output. -/
structure MissingIngredient where
  ingredientId : ℕ
  ingredientName : String
  neededQuantity : ℚ
  unit : String
  availableQuantity : ℚ
  deriving DecidableEq

/-- `calculateMissingIngredients`: keep the entries with `needed > available`
and report the excess. -/
def calculateMissingIngredients (selectedRecipes : List Selection)
    (pantryItems : List PantryItem) : List MissingIngredient :=
  ((ingredientNeeds selectedRecipes pantryItems).filter
      (fun e => decide (e.available < e.needed))).map
    (fun e =>
      { ingredientId := e.key
        ingredientName := e.name
        neededQuantity := e.needed - e.available
        unit := e.unit
        availableQuantity := e.available })

/-- The fields of the `users` row read by `generatePlan`. -/
structure UserProfile where
  kcal_target : ℚ
  protein_pct : ℚ
  carb_pct : ℚ
  fat_pct : ℚ
  deriving DecidableEq

/-- The `dailyTargets` computation of `generatePlan` (4 kcal/g for protein
and carbs, 9 kcal/g for fat, `Math.round`ed). -/
def dailyTargetsOf (userProfile : UserProfile) : MacroProfile :=
  { calories := userProfile.kcal_target
    protein := (round (userProfile.kcal_target * userProfile.protein_pct / 100 / 4) : ℤ)
    carbs := (round (userProfile.kcal_target * userProfile.carb_pct / 100 / 4) : ℤ)
    fat := (round (userProfile.kcal_target * userProfile.fat_pct / 100 / 9) : ℤ) }

/-- The per-recipe enrichment step of `generatePlan` (macros, protein
density with the zero-calorie guard, availability). -/
def mkRecipeWithMacros (pantryItems : List PantryItem) (recipe : Recipe) : RecipeWithMacros :=
  let macros := calculateRecipeMacros recipe
  { id := recipe.id
    recipe_ingredients := recipe.recipe_ingredients
    macros := macros
    proteinDensity := if 0 < macros.calories then macros.protein / macros.calories * 100 else 0
    availableServings := calculateAvailableServings recipe pantryItems }

/-- The `macroAccuracy` entries of `generatePlan`. -/
structure MacroAccuracy where
  calories : ℤ
  protein : ℤ
  carbs : ℤ
  fat : ℤ
  deriving DecidableEq

/-- The engine output assembled by `generatePlan` (the database rows carry
exactly these values). -/
structure PlanResult where
  total_kcal : ℤ
  total_protein : ℤ
  total_carbs : ℤ
  total_fat : ℤ
  meals : List Selection
  missingIngredients : List MissingIngredient
  macroAccuracy : MacroAccuracy
  deriving DecidableEq

/-- The `finalRecipes.reduce((sum, s) => sum + f(s.recipe.macros) * s.servings, 0)`
accumulations of step 9 of `generatePlan`. -/
def reduceMacro (selections : List Selection) (f : MacroProfile → ℚ) : ℚ :=
  selections.foldl (fun sum s => sum + f s.recipe.macros * (s.servings : ℚ)) 0

/-- One `macroAccuracy` field: `Math.round((1 - |actual - target| / target) * 100)`. -/
def accuracyOf (actual target : ℚ) : ℤ :=
  round ((1 - |actual - target| / target) * 100)

/-- The pure computational content of `generatePlan` (steps 2–9; the
database round-trips are the caller's concern).  `total_*` are the values
inserted into the `meal_plans` row, `meals` the selections inserted as `meals`
rows. -/
def generatePlanPure (userProfile : UserProfile) (recipes : List Recipe)
    (pantryItems : List PantryItem) (rand1 rand2 : ℚ) : PlanResult :=
  let dailyTargets := dailyTargetsOf userProfile
  let recipesWithMacros := recipes.map (mkRecipeWithMacros pantryItems)
  let filled := greedyProteinFill recipesWithMacros dailyTargets 7
  let proteinFilledRecipes := filled.1
  let currentMacros := filled.2
  let filledRecipes :=
    fillRemainingMacros recipesWithMacros proteinFilledRecipes currentMacros dailyTargets
      rand1 rand2 7
  let finalRecipes := fineTuneMacros filledRecipes dailyTargets 7
  let missingIngredients := calculateMissingIngredients finalRecipes pantryItems
  { total_kcal := round currentMacros.calories
    total_protein := round currentMacros.protein
    total_carbs := round currentMacros.carbs
    total_fat := round currentMacros.fat
    meals := finalRecipes
    missingIngredients := missingIngredients
    macroAccuracy :=
      { calories := accuracyOf (reduceMacro finalRecipes MacroProfile.calories / 7)
          dailyTargets.calories
        protein := accuracyOf (reduceMacro finalRecipes MacroProfile.protein / 7)
          dailyTargets.protein
        carbs := accuracyOf (reduceMacro finalRecipes MacroProfile.carbs / 7)
          dailyTargets.carbs
        fat := accuracyOf (reduceMacro finalRecipes MacroProfile.fat / 7)
          dailyTargets.fat } }

/-- Whether an ingredient id is present in the pantry. -/
def pantryHas (pantryItems : List PantryItem) (k : ℕ) : Bool :=
  (pantryItems.find? (fun p => decide (p.ingredient_id = k))).isSome

/-- The availability bound contributed by one requirement: `⌊pantry/required⌋`
when the ingredient is stocked, 0 when it is absent. -/
def availContrib (pantryItems : List PantryItem) (ri : RecipeIngredient) : ℤ :=
  match pantryItems.find? (fun p => decide (p.ingredient_id = ri.ingredient_id)) with
  | none => 0
  | some p => ⌊p.quantity / ri.quantity⌋

/-- The minimum of the availability contributions of a requirement list
(`⊤` for the empty list). -/
def minContrib (pantryItems : List PantryItem) (l : List RecipeIngredient) : WithTop ℤ :=
  (l.map (fun ri => ((availContrib pantryItems ri : ℤ) : WithTop ℤ))).foldr min ⊤

/-- The Availability Calculator as the spec words it: the minimum over the
required ingredients of `⌊pantry quantity / per-serving requirement⌋`, and 0
when some required ingredient is absent from the pantry entirely. -/
def availabilitySpec (recipe : Recipe) (pantryItems : List PantryItem) : ℤ :=
  if recipe.recipe_ingredients.all (fun ri => pantryHas pantryItems ri.ingredient_id) then
    ((recipe.recipe_ingredients.map
        (fun ri => ((⌊pantryQty pantryItems ri.ingredient_id / ri.quantity⌋ : ℤ) : WithTop ℤ))).foldr
      min ⊤).untop' 0
  else 0

example : calculateAvailableServings ⟨0, []⟩ [] = 0 := by
  norm_num [calculateAvailableServings]

example :
    calculateAvailableServings
      ⟨0, [⟨1, 150, "g", ⟨"chicken", 165, 31, 0, 4⟩⟩]⟩
      [⟨1, 100⟩] = 0 := by
  norm_num [calculateAvailableServings, availStep, List.find?]

example :
    calculateAvailableServings
      ⟨0, [⟨1, 50, "g", ⟨"chicken", 165, 31, 0, 4⟩⟩, ⟨2, 30, "g", ⟨"rice", 360, 7, 79, 1⟩⟩]⟩
      [⟨1, 175⟩, ⟨2, 100⟩] = 3 := by
  norm_num [calculateAvailableServings, availStep, List.find?, WithTop.untop']
  rfl

example :
    (calculateRecipeMacros
      ⟨0, [⟨1, 150, "g", ⟨"chicken", 165, 31, 0, 4⟩⟩]⟩).protein = 47 := by
  norm_num [calculateRecipeMacros, round_eq]

/-! ## Availability Calculator lemmas -/

theorem availContrib_nonneg {pantryItems : List PantryItem} {ri : RecipeIngredient}
    (hpan : ∀ p ∈ pantryItems, 0 ≤ p.quantity) (hq : 0 < ri.quantity) :
    0 ≤ availContrib pantryItems ri := by
  unfold availContrib
  cases hfind : pantryItems.find? (fun p => decide (p.ingredient_id = ri.ingredient_id)) with
  | none => exact le_refl 0
  | some p =>
    have hp : 0 ≤ p.quantity := hpan p (List.mem_of_find?_eq_some hfind)
    exact Int.floor_nonneg.mpr (div_nonneg hp hq.le)

theorem minContrib_nonneg {pantryItems : List PantryItem} {l : List RecipeIngredient}
    (hpan : ∀ p ∈ pantryItems, 0 ≤ p.quantity) (hreq : ∀ r ∈ l, 0 < r.quantity) :
    0 ≤ minContrib pantryItems l := by
  induction l with
  | nil => exact le_top
  | cons a l ih =>
    simp only [minContrib, List.map_cons, List.foldr_cons]
    refine le_min ?_ (ih (fun r hr => hreq r (List.mem_cons_of_mem a hr)))
    rw [← WithTop.coe_zero, WithTop.coe_le_coe]
    exact availContrib_nonneg hpan (hreq a (List.mem_cons_self a l))

theorem foldl_availStep_eq {pantryItems : List PantryItem}
    (hpan : ∀ p ∈ pantryItems, 0 ≤ p.quantity) :
    ∀ (l : List RecipeIngredient), (∀ r ∈ l, 0 < r.quantity) →
      ∀ acc : WithTop ℤ, 0 ≤ acc →
      l.foldl (availStep pantryItems) acc = min acc (minContrib pantryItems l) := by
  intro l
  induction l with
  | nil =>
    intro _ acc _
    simp [minContrib]
  | cons a l ih =>
    intro hreq acc hacc
    have hreqtl : ∀ r ∈ l, 0 < r.quantity := fun r hr => hreq r (List.mem_cons_of_mem a hr)
    have hM : 0 ≤ minContrib pantryItems l := minContrib_nonneg hpan hreqtl
    have hca : 0 ≤ availContrib pantryItems a :=
      availContrib_nonneg hpan (hreq a (List.mem_cons_self a l))
    have hcoe : (0 : WithTop ℤ) ≤ ((availContrib pantryItems a : ℤ) : WithTop ℤ) := by
      rw [← WithTop.coe_zero, WithTop.coe_le_coe]; exact hca
    simp only [List.foldl_cons, minContrib, List.map_cons, List.foldr_cons]
    cases hfind : pantryItems.find? (fun p => decide (p.ingredient_id = a.ingredient_id)) with
    | none =>
      have hstep : availStep pantryItems acc a = 0 := by
        simp [availStep, hfind]
      have hc0 : availContrib pantryItems a = 0 := by
        simp [availContrib, hfind]
      rw [hstep, ih hreqtl 0 le_rfl, min_eq_left hM, hc0, WithTop.coe_zero]
      show (0 : WithTop ℤ) = min acc (min 0 (minContrib pantryItems l))
      rw [min_eq_left hM, min_eq_right hacc]
    | some p =>
      have hstep : availStep pantryItems acc a =
          min acc ((availContrib pantryItems a : ℤ) : WithTop ℤ) := by
        simp [availStep, availContrib, hfind]
      rw [hstep, ih hreqtl _ (le_min hacc hcoe), min_assoc]
      rfl

theorem calculateAvailableServings_eq_minContrib (recipe : Recipe)
    {pantryItems : List PantryItem}
    (hpan : ∀ p ∈ pantryItems, 0 ≤ p.quantity)
    (hreq : ∀ r ∈ recipe.recipe_ingredients, 0 < r.quantity) :
    calculateAvailableServings recipe pantryItems =
      (minContrib pantryItems recipe.recipe_ingredients).untop' 0 := by
  unfold calculateAvailableServings
  rw [foldl_availStep_eq hpan recipe.recipe_ingredients hreq ⊤ le_top]
  rw [min_eq_right le_top]

theorem minContrib_le (pantryItems : List PantryItem) :
    ∀ {l : List RecipeIngredient}, ∀ r ∈ l,
      minContrib pantryItems l ≤ ((availContrib pantryItems r : ℤ) : WithTop ℤ) := by
  intro l
  induction l with
  | nil => intro r hr; cases hr
  | cons a l ih =>
    intro r hr
    simp only [minContrib, List.map_cons, List.foldr_cons]
    rcases List.mem_cons.mp hr with h | h
    · subst h; exact min_le_left _ _
    · exact le_trans (min_le_right _ _) (ih r h)

theorem minContrib_ne_top (pantryItems : List PantryItem)
    (l : List RecipeIngredient) (h : l ≠ []) :
    ∃ m : ℤ, minContrib pantryItems l = (m : WithTop ℤ) := by
  induction l with
  | nil => exact absurd rfl h
  | cons a l ih =>
    cases l with
    | nil =>
      refine ⟨availContrib pantryItems a, ?_⟩
      simp [minContrib]
    | cons b l2 =>
      obtain ⟨m, hm⟩ := ih (by simp)
      refine ⟨min (availContrib pantryItems a) m, ?_⟩
      have : minContrib pantryItems (a :: b :: l2) =
          min ((availContrib pantryItems a : ℤ) : WithTop ℤ)
            (minContrib pantryItems (b :: l2)) := by
        simp [minContrib]
      rw [this, hm, WithTop.coe_min]

theorem minContrib_cons (pantryItems : List PantryItem) (a : RecipeIngredient)
    (l : List RecipeIngredient) :
    minContrib pantryItems (a :: l) =
      min ((availContrib pantryItems a : ℤ) : WithTop ℤ) (minContrib pantryItems l) := rfl

theorem minContrib_append (pantryItems : List PantryItem) (l₁ l₂ : List RecipeIngredient) :
    minContrib pantryItems (l₁ ++ l₂) =
      min (minContrib pantryItems l₁) (minContrib pantryItems l₂) := by
  induction l₁ with
  | nil =>
    show minContrib pantryItems l₂ = min ⊤ (minContrib pantryItems l₂)
    rw [min_eq_right le_top]
  | cons a l ih =>
    rw [List.cons_append, minContrib_cons, minContrib_cons, ih, min_assoc]

theorem availContrib_antitone {pantryItems : List PantryItem} {ri rj : RecipeIngredient}
    (hpan : ∀ p ∈ pantryItems, 0 ≤ p.quantity)
    (hid : rj.ingredient_id = ri.ingredient_id)
    (hq : 0 < ri.quantity) (hle : ri.quantity ≤ rj.quantity) :
    availContrib pantryItems rj ≤ availContrib pantryItems ri := by
  unfold availContrib
  rw [hid]
  cases hfind : pantryItems.find? (fun p => decide (p.ingredient_id = ri.ingredient_id)) with
  | none => exact le_refl 0
  | some p =>
    have hp : 0 ≤ p.quantity := hpan p (List.mem_of_find?_eq_some hfind)
    exact Int.floor_mono (div_le_div_of_nonneg_left hp hq hle)

theorem calculateAvailableServings_nonneg {recipe : Recipe}
    {pantryItems : List PantryItem}
    (hpan : ∀ p ∈ pantryItems, 0 ≤ p.quantity)
    (hreq : ∀ r ∈ recipe.recipe_ingredients, 0 < r.quantity) :
    0 ≤ calculateAvailableServings recipe pantryItems := by
  rw [calculateAvailableServings_eq_minContrib recipe hpan hreq]
  cases hM : minContrib pantryItems recipe.recipe_ingredients with
  | top => simp [WithTop.untop']
  | coe m =>
    have := minContrib_nonneg hpan hreq
    rw [hM, ← WithTop.coe_zero, WithTop.coe_le_coe] at this
    simpa [WithTop.untop'] using this

/-- C2: with positive per-serving requirements and a non-negative pantry,
`calculateAvailableServings` (1) equals the spec's formula — the minimum over
required ingredients of `⌊pantry / required⌋`, and 0 when some required
ingredient is absent; (2) satisfies the floor property
`availableServings × requiredQuantity ≤ pantryQuantity` for every
requirement (with the pantry quantity taken as 0 when absent); and
(3) is antitone in any single requirement's quantity. -/
theorem calculateAvailableServings_correct (recipe : Recipe) (pantryItems : List PantryItem)
    (front back : List RecipeIngredient) (ri : RecipeIngredient) (q2 : ℚ)
    (hreq : ∀ r ∈ recipe.recipe_ingredients, 0 < r.quantity)
    (hpan : ∀ p ∈ pantryItems, 0 ≤ p.quantity)
    (hsplit : recipe.recipe_ingredients = front ++ ri :: back)
    (hq : ri.quantity ≤ q2) :
    calculateAvailableServings recipe pantryItems = availabilitySpec recipe pantryItems ∧
    (∀ r ∈ recipe.recipe_ingredients,
      (calculateAvailableServings recipe pantryItems : ℚ) * r.quantity
        ≤ pantryQty pantryItems r.ingredient_id) ∧
    calculateAvailableServings ⟨recipe.id, front ++ { ri with quantity := q2 } :: back⟩
        pantryItems
      ≤ calculateAvailableServings recipe pantryItems := by
  have hmain := calculateAvailableServings_eq_minContrib recipe hpan hreq
  have hnn := calculateAvailableServings_nonneg hpan hreq
  refine ⟨?_, ?_, ?_⟩
  · rw [hmain]
    unfold availabilitySpec
    by_cases hall : recipe.recipe_ingredients.all
        (fun ri => pantryHas pantryItems ri.ingredient_id) = true
    · rw [if_pos hall]
      have hmap : recipe.recipe_ingredients.map
            (fun ri => ((availContrib pantryItems ri : ℤ) : WithTop ℤ)) =
          recipe.recipe_ingredients.map
            (fun ri => ((⌊pantryQty pantryItems ri.ingredient_id / ri.quantity⌋ : ℤ) :
              WithTop ℤ)) := by
        refine List.map_congr_left (fun r hr => ?_)
        have hhas := List.all_eq_true.mp hall r hr
        unfold pantryHas at hhas
        cases hfind : pantryItems.find? (fun p => decide (p.ingredient_id = r.ingredient_id)) with
        | none => rw [hfind] at hhas; simp at hhas
        | some p =>
          unfold availContrib pantryQty
          rw [hfind]
      unfold minContrib
      rw [hmap]
    · rw [if_neg hall]
      obtain ⟨r, hr, hrfalse⟩ : ∃ r ∈ recipe.recipe_ingredients,
          ¬ pantryHas pantryItems r.ingredient_id = true := by
        by_contra hcon
        push_neg at hcon
        exact hall (List.all_eq_true.mpr hcon)
      have hfind : pantryItems.find? (fun p => decide (p.ingredient_id = r.ingredient_id))
          = none := by
        unfold pantryHas at hrfalse
        exact Option.not_isSome_iff_eq_none.mp (fun hs => hrfalse hs)
      have hc0 : availContrib pantryItems r = 0 := by simp [availContrib, hfind]
      have hle0 : minContrib pantryItems recipe.recipe_ingredients ≤ 0 := by
        have := minContrib_le pantryItems r hr
        rw [hc0, WithTop.coe_zero] at this
        exact this
      have heq0 : minContrib pantryItems recipe.recipe_ingredients = 0 :=
        le_antisymm hle0 (minContrib_nonneg hpan hreq)
      rw [heq0, ← WithTop.coe_zero, WithTop.untop'_coe]
  · intro r hr
    have hbound := minContrib_le pantryItems r hr
    have hne : recipe.recipe_ingredients ≠ [] := by
      rw [hsplit]; exact List.append_ne_nil_of_right_ne_nil front (by simp)
    obtain ⟨m, hm⟩ := minContrib_ne_top pantryItems recipe.recipe_ingredients hne
    have hres : calculateAvailableServings recipe pantryItems = m := by
      rw [hmain, hm, WithTop.untop'_coe]
    have hmle : m ≤ availContrib pantryItems r := by
      rw [hm, WithTop.coe_le_coe] at hbound
      exact hbound
    rw [hres]
    unfold availContrib at hmle
    unfold pantryQty
    cases hfind : pantryItems.find? (fun p => decide (p.ingredient_id = r.ingredient_id)) with
    | none =>
      rw [hfind] at hmle
      have hm0 : m = 0 := le_antisymm hmle (by rw [← hres]; exact hnn)
      rw [hm0]
      norm_num
    | some p =>
      rw [hfind] at hmle
      have hmle2 : m ≤ ⌊p.quantity / r.quantity⌋ := hmle
      have hrq := hreq r hr
      have hmq : (m : ℚ) ≤ p.quantity / r.quantity :=
        le_trans (by exact_mod_cast hmle2) (Int.floor_le _)
      show (m : ℚ) * r.quantity ≤ p.quantity
      calc (m : ℚ) * r.quantity ≤ (p.quantity / r.quantity) * r.quantity :=
            mul_le_mul_of_nonneg_right hmq hrq.le
        _ = p.quantity := div_mul_cancel₀ _ (ne_of_gt hrq)
  · have hri : 0 < ri.quantity := hreq ri (by rw [hsplit]; simp)
    have hreq2 : ∀ r ∈ front ++ { ri with quantity := q2 } :: back, 0 < r.quantity := by
      intro r hr
      rcases List.mem_append.mp hr with h | h
      · exact hreq r (by rw [hsplit]; exact List.mem_append_left _ h)
      · rcases List.mem_cons.mp h with h | h
        · subst h; exact lt_of_lt_of_le hri hq
        · exact hreq r (by rw [hsplit]; exact List.mem_append_right _ (List.mem_cons_of_mem _ h))
    have hmain2 := calculateAvailableServings_eq_minContrib
      ⟨recipe.id, front ++ { ri with quantity := q2 } :: back⟩ hpan hreq2
    rw [hmain, hmain2, hsplit]
    have hlem : minContrib pantryItems (front ++ { ri with quantity := q2 } :: back)
        ≤ minContrib pantryItems (front ++ ri :: back) := by
      rw [minContrib_append, minContrib_append, minContrib_cons, minContrib_cons]
      have hc : availContrib pantryItems { ri with quantity := q2 }
          ≤ availContrib pantryItems ri :=
        availContrib_antitone hpan rfl hri hq
      exact min_le_min le_rfl (min_le_min (WithTop.coe_le_coe.mpr hc) le_rfl)
    obtain ⟨m1, hm1⟩ := minContrib_ne_top pantryItems
      (front ++ { ri with quantity := q2 } :: back)
      (List.append_ne_nil_of_right_ne_nil front (by simp))
    obtain ⟨m2, hm2⟩ := minContrib_ne_top pantryItems (front ++ ri :: back)
      (List.append_ne_nil_of_right_ne_nil front (by simp))
    rw [hm1, hm2] at hlem ⊢
    rw [WithTop.untop'_coe, WithTop.untop'_coe]
    exact WithTop.coe_le_coe.mp hlem

/-- C2 witness: the availability theorem applied to a one-requirement recipe
(50 g per serving, 175 g stocked): availability 3, the spec formula agrees,
the floor property holds, and raising the requirement to 100 g lowers
availability. -/
theorem calculateAvailableServings_correct_witness :
    calculateAvailableServings ⟨7, [⟨1, 50, "g", ⟨"chicken", 165, 31, 0, 4⟩⟩]⟩ [⟨1, 175⟩]
        = availabilitySpec ⟨7, [⟨1, 50, "g", ⟨"chicken", 165, 31, 0, 4⟩⟩]⟩ [⟨1, 175⟩] ∧
    (∀ r ∈ (⟨7, [⟨1, 50, "g", ⟨"chicken", 165, 31, 0, 4⟩⟩]⟩ : Recipe).recipe_ingredients,
      (calculateAvailableServings ⟨7, [⟨1, 50, "g", ⟨"chicken", 165, 31, 0, 4⟩⟩]⟩
          [⟨1, 175⟩] : ℚ) * r.quantity ≤ pantryQty [⟨1, 175⟩] r.ingredient_id) ∧
    calculateAvailableServings ⟨7, [⟨1, 100, "g", ⟨"chicken", 165, 31, 0, 4⟩⟩]⟩ [⟨1, 175⟩]
      ≤ calculateAvailableServings ⟨7, [⟨1, 50, "g", ⟨"chicken", 165, 31, 0, 4⟩⟩]⟩ [⟨1, 175⟩] :=
  calculateAvailableServings_correct
    ⟨7, [⟨1, 50, "g", ⟨"chicken", 165, 31, 0, 4⟩⟩]⟩ [⟨1, 175⟩]
    [] [] ⟨1, 50, "g", ⟨"chicken", 165, 31, 0, 4⟩⟩ 100
    (by intro r hr; simp at hr; rw [hr]; norm_num)
    (by intro p hp; simp at hp; rw [hp]; norm_num)
    rfl (by norm_num)

/-- C5 counterexample: a recipe with zero ingredient requirements is reported
as 0 available servings, not as unlimited — the `Infinity` sentinel is mapped
back to 0 on return. -/
theorem zero_requirements_reported_zero :
    calculateAvailableServings ⟨0, []⟩ [⟨1, 100⟩] = 0 := rfl

/-- C5 amended: for every pantry snapshot, a recipe with zero ingredient
requirements is reported by the Availability Calculator as 0 available
servings (and is therefore excluded from selection), not as unlimited. -/
theorem zero_requirements_zero_servings (recipe : Recipe) (pantryItems : List PantryItem)
    (h : recipe.recipe_ingredients = []) :
    calculateAvailableServings recipe pantryItems = 0 := by
  unfold calculateAvailableServings
  rw [h]
  rfl

/-- C5 amended witness: the amended availability statement at a concrete
ingredient-free recipe and a non-empty pantry. -/
theorem zero_requirements_zero_servings_witness :
    calculateAvailableServings ⟨3, []⟩ [⟨1, 100⟩, ⟨2, 50⟩] = 0 :=
  zero_requirements_zero_servings ⟨3, []⟩ [⟨1, 100⟩, ⟨2, 50⟩] rfl

/-! ## Greedy protein-fill lemmas -/

theorem clampServings_le_cap (gap grams : ℚ) (avail cap : ℤ) :
    clampServings gap grams avail cap ≤ cap := by
  unfold clampServings
  split
  · exact min_le_right _ _
  · exact le_trans (min_le_right _ _) (min_le_right _ _)

theorem greedyGo_stops (dailyTargets : MacroProfile) (L : List RecipeWithMacros)
    (sel : List Selection) (cur : MacroProfile) (day slot : ℕ)
    (h : dailyTargets.protein ≤ cur.protein / 7) :
    greedyGo dailyTargets 7 L sel cur day slot = (sel, cur) := by
  have hgap : dailyGap dailyTargets.protein cur.protein 7 = 0 := by
    unfold dailyGap
    rw [max_eq_left (sub_nonpos.mpr (by exact_mod_cast h))]
  cases L with
  | nil => rfl
  | cons a rest =>
    simp [greedyGo, hgap]

theorem greedyGo_servings_le_three (t : MacroProfile) (d : ℕ) :
    ∀ (L : List RecipeWithMacros) (sel : List Selection) (cur : MacroProfile) (day slot : ℕ),
      (∀ s ∈ sel, s.servings ≤ 3) →
      ∀ s ∈ (greedyGo t d L sel cur day slot).1, s.servings ≤ 3 := by
  intro L
  induction L with
  | nil => intro sel cur day slot hsel s hs; exact hsel s hs
  | cons a rest ih =>
    intro sel cur day slot hsel s hs
    rw [greedyGo] at hs
    by_cases h1 : dailyGap t.protein cur.protein d ≤ 0
    · rw [if_pos h1] at hs
      exact hsel s hs
    · rw [if_neg h1] at hs
      by_cases h2 : 0 < clampServings (dailyGap t.protein cur.protein d) a.macros.protein
          a.availableServings 3
      · rw [if_pos h2] at hs
        refine ih _ _ _ _ ?_ s hs
        intro s2 hs2
        rcases List.mem_append.mp hs2 with h | h
        · exact hsel s2 h
        · rcases List.mem_singleton.mp h with h
          rw [h]
          exact clampServings_le_cap _ _ _ _
      · rw [if_neg h2] at hs
        exact ih _ _ _ _ hsel s hs

/-- C1: the greedy protein-fill stage never emits an assignment with more than
3 servings (the clamp `min(ceil(gap / protein), availableServings, 3)`), and
once the accumulated weekly protein divided by 7 reaches the daily protein
target, the loop emits no further assignments and returns its state
unchanged. -/
theorem greedyProteinFill_cap_and_termination (recipes : List RecipeWithMacros)
    (t : MacroProfile) (L : List RecipeWithMacros) (sel : List Selection)
    (cur : MacroProfile) (day slot : ℕ)
    (h : t.protein ≤ cur.protein / 7) :
    (∀ s ∈ (greedyProteinFill recipes t 7).1, s.servings ≤ 3) ∧
    greedyGo t 7 L sel cur day slot = (sel, cur) := by
  constructor
  · exact greedyGo_servings_le_three t 7 (sortByProteinDensity recipes) [] ⟨0, 0, 0, 0⟩ 0 0
      (by intro s hs; cases hs)
  · exact greedyGo_stops t L sel cur day slot h

/-- C1 witness: the greedy theorem applied to a concrete recipe pool with a
50 g-protein recipe, a 7 g daily protein target and an accumulator holding
100 g of weekly protein (100/7 ≥ 7, so the loop stops). -/
theorem greedyProteinFill_cap_and_termination_witness :
    (∀ s ∈ (greedyProteinFill
        [⟨1, [], ⟨500, 50, 10, 10⟩, 10, 10⟩] ⟨2000, 7, 200, 20⟩ 7).1, s.servings ≤ 3) ∧
    greedyGo ⟨2000, 7, 200, 20⟩ 7 [⟨1, [], ⟨500, 50, 10, 10⟩, 10, 10⟩] []
        ⟨500, 100, 10, 10⟩ 0 0 = ([], ⟨500, 100, 10, 10⟩) :=
  greedyProteinFill_cap_and_termination
    [⟨1, [], ⟨500, 50, 10, 10⟩, 10, 10⟩] ⟨2000, 7, 200, 20⟩
    [⟨1, [], ⟨500, 50, 10, 10⟩, 10, 10⟩] [] ⟨500, 100, 10, 10⟩ 0 0 (by norm_num)

/-! ## Fine-tuner lemmas -/

theorem foldl_accumulateMacros_calories :
    ∀ (l : List Selection) (init : MacroProfile),
      (l.foldl accumulateMacros init).calories
        = init.calories + (l.map (fun s => s.recipe.macros.calories * (s.servings : ℚ))).sum := by
  intro l
  induction l with
  | nil => intro init; simp
  | cons a l ih =>
    intro init
    rw [List.foldl_cons, ih, List.map_cons, List.sum_cons]
    show init.calories + a.recipe.macros.calories * (a.servings : ℚ) + _ = _
    ring

/-- C7: with a positive calorie target, the fine-tuner leaves every
assignment unchanged when the relative deviation of the recomputed daily
average calories from the target is ≤ 15%, and otherwise replaces every
assignment's servings by `max 1 (round (servings × f))` in a single pass,
with `f = 0.8` when the deviation exceeds 50% and `f = 0.9` otherwise. -/
theorem fineTuneMacros_spec (sels : List Selection) (t : MacroProfile)
    (h : 0 < t.calories) :
    fineTuneMacros sels t 7 =
      if |(sels.map (fun s => s.recipe.macros.calories * (s.servings : ℚ))).sum / 7
            - t.calories| / t.calories ≤ 0.15 then sels
      else sels.map (fun s =>
        { s with servings := max 1 (round ((s.servings : ℚ) *
            (if 0.5 < |(sels.map (fun s2 =>
                  s2.recipe.macros.calories * (s2.servings : ℚ))).sum / 7
                - t.calories| / t.calories then (0.8 : ℚ) else 0.9))) }) := by
  simp only [fineTuneMacros]
  rw [foldl_accumulateMacros_calories]
  simp only [zero_add, Nat.cast_ofNat]
  by_cases hdev : |(sels.map (fun s => s.recipe.macros.calories * (s.servings : ℚ))).sum / 7
      - t.calories| / t.calories ≤ 0.15
  · rw [if_pos hdev]
    refine Eq.trans (List.map_congr_left fun s _ => ?_) (List.map_id _)
    rw [if_neg (not_lt.mpr hdev)]
    rfl
  · rw [if_neg hdev]
    refine List.map_congr_left fun s _ => ?_
    rw [if_pos (not_le.mp hdev)]

/-- C7 witness: the fine-tuner theorem at one 500 kcal-per-serving,
3-serving assignment against a 100 kcal daily target (deviation ≈ 114% >
50%), so the servings scale by 0.8 to `max 1 (round 2.4) = 2`. -/
theorem fineTuneMacros_spec_witness :
    fineTuneMacros [⟨⟨1, [], ⟨500, 50, 10, 10⟩, 10, 10⟩, 3, 0, "snack"⟩]
        ⟨100, 0, 0, 0⟩ 7 =
      [⟨⟨1, [], ⟨500, 50, 10, 10⟩, 10, 10⟩, 2, 0, "snack"⟩] := by
  rw [fineTuneMacros_spec _ _ (by norm_num)]
  norm_num [round_eq, abs_of_nonneg, max_def]

/-! ## Gap-filler lemmas -/

theorem snackFor_cons (gap : ℚ) (grams : RecipeWithMacros → ℚ) (rand : ℚ) (d : ℕ)
    (c : RecipeWithMacros) (cs : List RecipeWithMacros) :
    snackFor gap grams rand d (c :: cs) =
      if 0 < gap then
        if 0 < clampServings gap (grams c) c.availableServings 2 then
          [{ recipe := c, servings := clampServings gap (grams c) c.availableServings 2
             day := ⌊rand * (d : ℚ)⌋, slot := "snack" }]
        else []
      else [] := rfl

theorem snackFor_length_le (gap : ℚ) (grams : RecipeWithMacros → ℚ)
    (rand : ℚ) (d : ℕ) (candidates : List RecipeWithMacros) :
    (snackFor gap grams rand d candidates).length ≤ 1 := by
  cases candidates with
  | nil => norm_num [snackFor]
  | cons c cs =>
    rw [snackFor_cons]
    by_cases hgap : 0 < gap
    · rw [if_pos hgap]
      split <;> norm_num
    · rw [if_neg hgap]
      norm_num

theorem snackFor_mem {gap : ℚ} {grams : RecipeWithMacros → ℚ}
    {candidates : List RecipeWithMacros} {rand : ℚ} {d : ℕ} {s : Selection}
    (hs : s ∈ snackFor gap grams rand d candidates) :
    ∃ c cs, candidates = c :: cs ∧ 0 < gap ∧
      s = ⟨c, clampServings gap (grams c) c.availableServings 2, ⌊rand * (d : ℚ)⌋, "snack"⟩ := by
  cases hcand : candidates with
  | nil => rw [hcand] at hs; cases hs
  | cons c cs =>
    rw [hcand, snackFor_cons] at hs
    by_cases hgap : 0 < gap
    · rw [if_pos hgap] at hs
      by_cases hpos : 0 < clampServings gap (grams c) c.availableServings 2
      · rw [if_pos hpos] at hs
        exact ⟨c, cs, rfl, hgap, List.mem_singleton.mp hs⟩
      · rw [if_neg hpos] at hs
        cases hs
    · rw [if_neg hgap] at hs
      cases hs

theorem snack_day_bounds {rand : ℚ} (h1 : 0 ≤ rand) (h2 : rand < 1) :
    0 ≤ ⌊rand * (7 : ℚ)⌋ ∧ ⌊rand * (7 : ℚ)⌋ ≤ 6 := by
  constructor
  · exact Int.floor_nonneg.mpr (mul_nonneg h1 (by norm_num))
  · have : rand * 7 < 7 := by nlinarith
    have h7 : ⌊rand * (7 : ℚ)⌋ < 7 := Int.floor_lt.mpr (by exact_mod_cast this)
    omega

/-- Membership and Boolean facts about the gap filler's candidate pools. -/
theorem gapFiller_candidate_facts {recipes : List RecipeWithMacros} {sels : List Selection}
    {c : RecipeWithMacros}
    (hc : c ∈ recipes.filter
      (fun r => (!((sels.map (fun s => s.recipe.id)).any (fun i => decide (i = r.id))))
        && decide (0 < r.availableServings))) :
    c ∈ recipes ∧ (∀ u ∈ sels, u.recipe.id ≠ c.id) ∧ 0 < c.availableServings := by
  obtain ⟨hmem, hbool⟩ := List.mem_filter.mp hc
  rw [Bool.and_eq_true] at hbool
  obtain ⟨hnot, hav⟩ := hbool
  refine ⟨hmem, ?_, of_decide_eq_true hav⟩
  intro u hu
  rw [Bool.not_eq_true'] at hnot
  have := List.any_eq_false.mp hnot (u.recipe.id) (List.mem_map_of_mem _ hu)
  simpa using this

/-- C8: with in-range random draws and non-negative carb/fat macros, the gap
filler appends at most one carb snack and at most one fat snack (at most two
assignments total).  Every appended assignment uses the "snack" slot, a day
in 0–6, a recipe not already selected with positive availability and the
right macro leaning, and servings
`min(ceil(gap / grams-per-serving), availability, 2)`. -/
theorem fillRemainingMacros_spec (recipes : List RecipeWithMacros) (sels : List Selection)
    (cur t : MacroProfile) (r1 r2 : ℚ)
    (h1 : 0 ≤ r1) (h2 : r1 < 1) (h3 : 0 ≤ r2) (h4 : r2 < 1)
    (hnn : ∀ r ∈ recipes, 0 ≤ r.macros.carbs ∧ 0 ≤ r.macros.fat) :
    ∃ carbPart fatPart : List Selection,
      fillRemainingMacros recipes sels cur t r1 r2 7 = sels ++ carbPart ++ fatPart ∧
      carbPart.length ≤ 1 ∧ fatPart.length ≤ 1 ∧
      (∀ s ∈ carbPart,
        s.slot = "snack" ∧ 0 ≤ s.day ∧ s.day ≤ 6 ∧
        (∀ u ∈ sels, u.recipe.id ≠ s.recipe.id) ∧
        0 < s.recipe.availableServings ∧
        s.recipe.macros.fat < s.recipe.macros.carbs ∧
        s.servings = min ⌈dailyGap t.carbs cur.carbs 7 / s.recipe.macros.carbs⌉
          (min s.recipe.availableServings 2)) ∧
      (∀ s ∈ fatPart,
        s.slot = "snack" ∧ 0 ≤ s.day ∧ s.day ≤ 6 ∧
        (∀ u ∈ sels, u.recipe.id ≠ s.recipe.id) ∧
        0 < s.recipe.availableServings ∧
        s.recipe.macros.carbs < s.recipe.macros.fat ∧
        s.servings = min ⌈dailyGap t.fat cur.fat 7 / s.recipe.macros.fat⌉
          (min s.recipe.availableServings 2)) := by
  refine ⟨_, _, rfl, snackFor_length_le _ _ _ _ _, snackFor_length_le _ _ _ _ _, ?_, ?_⟩
  · intro s hs
    obtain ⟨c, cs, hcand, hgap, hsel⟩ := snackFor_mem hs
    have hmemc : c ∈ (recipes.filter
        (fun r => (!((sels.map (fun s => s.recipe.id)).any (fun i => decide (i = r.id))))
          && decide (0 < r.availableServings))).filter
        (fun r => decide (r.macros.fat < r.macros.carbs)) := by
      rw [← List.mem_insertionSort
        (fun a b : RecipeWithMacros =>
          b.macros.carbs / b.macros.calories ≤ a.macros.carbs / a.macros.calories)]
      rw [hcand]
      exact List.mem_cons_self c cs
    obtain ⟨hmemav, hlean⟩ := List.mem_filter.mp hmemc
    obtain ⟨hrec, hused, hav⟩ := gapFiller_candidate_facts hmemav
    have hleanq : c.macros.fat < c.macros.carbs := of_decide_eq_true hlean
    have hcnz : c.macros.carbs ≠ 0 :=
      ne_of_gt (lt_of_le_of_lt (hnn c hrec).2 hleanq)
    obtain ⟨hd0, hd6⟩ := snack_day_bounds h1 h2
    subst hsel
    refine ⟨rfl, hd0, hd6, hused, hav, hleanq, ?_⟩
    show clampServings (dailyGap t.carbs cur.carbs 7) c.macros.carbs c.availableServings 2 = _
    unfold clampServings
    rw [if_neg hcnz]
  · intro s hs
    obtain ⟨c, cs, hcand, hgap, hsel⟩ := snackFor_mem hs
    have hmemc : c ∈ (recipes.filter
        (fun r => (!((sels.map (fun s => s.recipe.id)).any (fun i => decide (i = r.id))))
          && decide (0 < r.availableServings))).filter
        (fun r => decide (r.macros.carbs < r.macros.fat)) := by
      rw [← List.mem_insertionSort
        (fun a b : RecipeWithMacros =>
          b.macros.fat / b.macros.calories ≤ a.macros.fat / a.macros.calories)]
      rw [hcand]
      exact List.mem_cons_self c cs
    obtain ⟨hmemav, hlean⟩ := List.mem_filter.mp hmemc
    obtain ⟨hrec, hused, hav⟩ := gapFiller_candidate_facts hmemav
    have hleanq : c.macros.carbs < c.macros.fat := of_decide_eq_true hlean
    have hcnz : c.macros.fat ≠ 0 :=
      ne_of_gt (lt_of_le_of_lt (hnn c hrec).1 hleanq)
    obtain ⟨hd0, hd6⟩ := snack_day_bounds h3 h4
    subst hsel
    refine ⟨rfl, hd0, hd6, hused, hav, hleanq, ?_⟩
    show clampServings (dailyGap t.fat cur.fat 7) c.macros.fat c.availableServings 2 = _
    unfold clampServings
    rw [if_neg hcnz]

/-! ## Concrete fixtures for witnesses and counterexamples -/

/-- A protein-dense fixture recipe (per serving: 500 kcal, 50 g protein,
10 g carbs, 10 g fat; availability 10). -/
def rwmA : RecipeWithMacros :=
  ⟨1, [⟨1, 100, "g", ⟨"a", 500, 50, 10, 10⟩⟩], ⟨500, 50, 10, 10⟩, 10, 10⟩

/-- A carb-leaning fixture recipe (per serving: 400 kcal, 5 g protein,
80 g carbs, 5 g fat; availability 10). -/
def rwmB : RecipeWithMacros :=
  ⟨2, [⟨2, 100, "g", ⟨"b", 400, 5, 80, 5⟩⟩], ⟨400, 5, 80, 5⟩, 5/4, 10⟩

/-- C8 witness: the gap-filler theorem at the concrete two-recipe pool with
recipe 1 already selected, both random draws 0 and non-negative macros. -/
theorem fillRemainingMacros_spec_witness :
    ∃ carbPart fatPart : List Selection,
      fillRemainingMacros [rwmA, rwmB] [⟨rwmA, 1, 0, "breakfast"⟩] ⟨500, 50, 10, 10⟩
          ⟨2000, 7, 200, 20⟩ 0 0 7
        = [⟨rwmA, 1, 0, "breakfast"⟩] ++ carbPart ++ fatPart ∧
      carbPart.length ≤ 1 ∧ fatPart.length ≤ 1 ∧
      (∀ s ∈ carbPart,
        s.slot = "snack" ∧ 0 ≤ s.day ∧ s.day ≤ 6 ∧
        (∀ u ∈ [(⟨rwmA, 1, 0, "breakfast"⟩ : Selection)], u.recipe.id ≠ s.recipe.id) ∧
        0 < s.recipe.availableServings ∧
        s.recipe.macros.fat < s.recipe.macros.carbs ∧
        s.servings = min ⌈dailyGap 200 10 7 / s.recipe.macros.carbs⌉
          (min s.recipe.availableServings 2)) ∧
      (∀ s ∈ fatPart,
        s.slot = "snack" ∧ 0 ≤ s.day ∧ s.day ≤ 6 ∧
        (∀ u ∈ [(⟨rwmA, 1, 0, "breakfast"⟩ : Selection)], u.recipe.id ≠ s.recipe.id) ∧
        0 < s.recipe.availableServings ∧
        s.recipe.macros.carbs < s.recipe.macros.fat ∧
        s.servings = min ⌈dailyGap 20 10 7 / s.recipe.macros.fat⌉
          (min s.recipe.availableServings 2)) :=
  fillRemainingMacros_spec [rwmA, rwmB] [⟨rwmA, 1, 0, "breakfast"⟩] ⟨500, 50, 10, 10⟩
    ⟨2000, 7, 200, 20⟩ 0 0 (by norm_num) (by norm_num) (by norm_num) (by norm_num)
    (by
      intro r hr
      simp only [List.mem_cons, List.not_mem_nil, or_false] at hr
      rcases hr with h | h <;> subst h <;> norm_num [rwmA, rwmB])

/-! ## Shortfall-reporter lemmas -/

/-- The (requirement, servings) occurrence list the nested shortfall loops
iterate over, flattened. -/
def needPairs (selectedRecipes : List Selection) : List (RecipeIngredient × ℤ) :=
  selectedRecipes.flatMap
    (fun s => s.recipe.recipe_ingredients.map (fun ri => (ri, s.servings)))

/-- The required quantity of ingredient `k` summed over an occurrence list. -/
def sumNeeded (pairs : List (RecipeIngredient × ℤ)) (k : ℕ) : ℚ :=
  ((pairs.filter (fun pr => decide (pr.1.ingredient_id = k))).map
    (fun pr => pr.1.quantity * (pr.2 : ℚ))).sum

/-- The total required quantity of ingredient `k` across all assignments:
the sum over assignments of servings × per-serving requirement. -/
def totalNeeded (selectedRecipes : List Selection) (k : ℕ) : ℚ :=
  sumNeeded (needPairs selectedRecipes) k

theorem pantryQty_nonneg {pantryItems : List PantryItem}
    (hpan : ∀ p ∈ pantryItems, 0 ≤ p.quantity) (k : ℕ) :
    0 ≤ pantryQty pantryItems k := by
  unfold pantryQty
  cases hfind : pantryItems.find? (fun p => decide (p.ingredient_id = k)) with
  | none => exact le_refl 0
  | some p => exact hpan p (List.mem_of_find?_eq_some hfind)

theorem sumNeeded_eq_zero {pairs : List (RecipeIngredient × ℤ)} {k : ℕ}
    (h : ∀ pr ∈ pairs, pr.1.ingredient_id ≠ k) : sumNeeded pairs k = 0 := by
  unfold sumNeeded
  rw [List.filter_eq_nil_iff.mpr (fun pr hpr => by simpa using h pr hpr)]
  rfl

theorem sumNeeded_append_single (pairs : List (RecipeIngredient × ℤ))
    (pr : RecipeIngredient × ℤ) (k : ℕ) :
    sumNeeded (pairs ++ [pr]) k =
      sumNeeded pairs k +
        (if pr.1.ingredient_id = k then pr.1.quantity * (pr.2 : ℚ) else 0) := by
  unfold sumNeeded
  rw [List.filter_append, List.map_append, List.sum_append]
  congr 1
  by_cases hid : pr.1.ingredient_id = k
  · simp [hid]
  · simp [hid]

/-- The invariant tying the `ingredientNeeds` association list to the
occurrence list already processed: keys are distinct, each entry carries the
exact accumulated requirement and the pantry quantity, and the keys are
exactly the ingredient ids occurring so far. -/
def needsInv (pantryItems : List PantryItem) (pairs : List (RecipeIngredient × ℤ))
    (l : List NeedEntry) : Prop :=
  (l.map (fun e => e.key)).Nodup ∧
  (∀ e ∈ l, e.needed = sumNeeded pairs e.key ∧ e.available = pantryQty pantryItems e.key) ∧
  (∀ k : ℕ, (∃ e ∈ l, e.key = k) ↔ (∃ pr ∈ pairs, pr.1.ingredient_id = k))

theorem needsInv_step {pantryItems : List PantryItem}
    {pairs : List (RecipeIngredient × ℤ)} {l : List NeedEntry}
    (h : needsInv pantryItems pairs l) (pr : RecipeIngredient × ℤ) :
    needsInv pantryItems (pairs ++ [pr]) (needsStep pantryItems l pr) := by
  obtain ⟨hnodup, hvals, hkeys⟩ := h
  unfold needsStep
  by_cases hany : l.any (fun e => decide (e.key = pr.1.ingredient_id)) = true
  · rw [if_pos hany]
    obtain ⟨e0, he0, he0key⟩ : ∃ e ∈ l, e.key = pr.1.ingredient_id := by
      obtain ⟨e0, he0, hb⟩ := List.any_eq_true.mp hany
      exact ⟨e0, he0, of_decide_eq_true hb⟩
    refine ⟨?_, ?_, ?_⟩
    · rw [List.map_map]
      have : ((fun e : NeedEntry => e.key) ∘
          (fun e => if e.key = pr.1.ingredient_id
            then { e with needed := e.needed + pr.1.quantity * (pr.2 : ℚ) } else e))
          = fun e : NeedEntry => e.key := by
        funext e
        by_cases hk : e.key = pr.1.ingredient_id <;> simp [hk]
      rw [this]
      exact hnodup
    · intro e he
      obtain ⟨e1, he1, heq⟩ := List.mem_map.mp he
      obtain ⟨hneed1, havail1⟩ := hvals e1 he1
      by_cases hk : e1.key = pr.1.ingredient_id
      · rw [if_pos hk] at heq
        subst heq
        constructor
        · show e1.needed + pr.1.quantity * (pr.2 : ℚ) = _
          rw [sumNeeded_append_single, if_pos (by rw [hk]), hneed1, hk]
        · exact havail1
      · rw [if_neg hk] at heq
        subst heq
        refine ⟨?_, havail1⟩
        rw [sumNeeded_append_single, if_neg (fun hc => hk (by rw [hc])), hneed1, add_zero]
    · intro k
      constructor
      · intro ⟨e, he, hek⟩
        obtain ⟨e1, he1, heq⟩ := List.mem_map.mp he
        have hkey : e1.key = k := by
          by_cases hk : e1.key = pr.1.ingredient_id
          · rw [if_pos hk] at heq; subst heq; exact hek
          · rw [if_neg hk] at heq; subst heq; exact hek
        obtain ⟨pr2, hpr2, hid2⟩ := (hkeys k).mp ⟨e1, he1, hkey⟩
        exact ⟨pr2, List.mem_append_left _ hpr2, hid2⟩
      · intro ⟨pr2, hpr2, hid⟩
        rcases List.mem_append.mp hpr2 with hin | hin
        · obtain ⟨e, he, hek⟩ := (hkeys k).mpr ⟨pr2, hin, hid⟩
          refine ⟨(fun e : NeedEntry => if e.key = pr.1.ingredient_id
            then { e with needed := e.needed + pr.1.quantity * (pr.2 : ℚ) } else e) e,
            List.mem_map_of_mem _ he, ?_⟩
          by_cases hk : e.key = pr.1.ingredient_id
          · show (if e.key = pr.1.ingredient_id
              then { e with needed := e.needed + pr.1.quantity * (pr.2 : ℚ) } else e).key = k
            rw [if_pos hk]
            exact hek
          · show (if e.key = pr.1.ingredient_id
              then { e with needed := e.needed + pr.1.quantity * (pr.2 : ℚ) } else e).key = k
            rw [if_neg hk]
            exact hek
        · have hpreq : pr2 = pr := List.mem_singleton.mp hin
          refine ⟨(fun e : NeedEntry => if e.key = pr.1.ingredient_id
            then { e with needed := e.needed + pr.1.quantity * (pr.2 : ℚ) } else e) e0,
            List.mem_map_of_mem _ he0, ?_⟩
          show (if e0.key = pr.1.ingredient_id
            then { e0 with needed := e0.needed + pr.1.quantity * (pr.2 : ℚ) } else e0).key = k
          rw [if_pos he0key]
          show e0.key = k
          rw [he0key, ← hpreq, hid]
  · rw [if_neg hany]
    have hnotin : ∀ e ∈ l, e.key ≠ pr.1.ingredient_id := by
      intro e he hc
      rw [Bool.not_eq_true] at hany
      have := List.any_eq_false.mp hany e he
      simp [hc] at this
    refine ⟨?_, ?_, ?_⟩
    · rw [List.map_append]
      rw [List.nodup_append]
      refine ⟨hnodup, List.nodup_singleton _, ?_⟩
      intro a ha hb
      obtain ⟨e, he, hek⟩ := List.mem_map.mp ha
      simp only [List.map_cons, List.map_nil, List.mem_singleton] at hb
      exact hnotin e he (by rw [hek, hb])
    · intro e he
      rcases List.mem_append.mp he with hin | hin
      · obtain ⟨hneed1, havail1⟩ := hvals e hin
        refine ⟨?_, havail1⟩
        rw [sumNeeded_append_single, if_neg (fun hc => hnotin e hin (by rw [hc])), hneed1,
          add_zero]
      · rcases List.mem_singleton.mp hin with rfl2
        subst rfl2
        constructor
        · show pr.1.quantity * (pr.2 : ℚ) = _
          rw [sumNeeded_append_single, if_pos rfl]
          rw [sumNeeded_eq_zero, zero_add]
          intro pr2 hpr2 hc
          obtain ⟨e, he, hek⟩ := (hkeys pr.1.ingredient_id).mpr ⟨pr2, hpr2, hc⟩
          exact hnotin e he hek
        · rfl
    · intro k
      constructor
      · intro ⟨e, he, hek⟩
        rcases List.mem_append.mp he with hin | hin
        · obtain ⟨pr2, hpr2, hid2⟩ := (hkeys k).mp ⟨e, hin, hek⟩
          exact ⟨pr2, List.mem_append_left _ hpr2, hid2⟩
        · rcases List.mem_singleton.mp hin with rfl2
          subst rfl2
          exact ⟨pr, List.mem_append_right _ (List.mem_singleton.mpr rfl), hek⟩
      · intro ⟨pr2, hpr2, hid2⟩
        rcases List.mem_append.mp hpr2 with hin | hin
        · obtain ⟨e, he, hek⟩ := (hkeys k).mpr ⟨pr2, hin, hid2⟩
          exact ⟨e, List.mem_append_left _ he, hek⟩
        · rcases List.mem_singleton.mp hin with rfl2
          subst rfl2
          exact ⟨_, List.mem_append_right _ (List.mem_singleton.mpr rfl), hid2⟩

theorem needsInv_foldl {pantryItems : List PantryItem} :
    ∀ (pairs pre : List (RecipeIngredient × ℤ)) (acc : List NeedEntry),
      needsInv pantryItems pre acc →
      needsInv pantryItems (pre ++ pairs) (pairs.foldl (needsStep pantryItems) acc) := by
  intro pairs
  induction pairs with
  | nil =>
    intro pre acc h
    rw [List.append_nil]
    exact h
  | cons pr rest ih =>
    intro pre acc h
    rw [List.foldl_cons]
    have h2 := ih (pre ++ [pr]) _ (needsInv_step h pr)
    rw [List.append_assoc] at h2
    exact h2

theorem foldl_inner_eq_flatMap {α β γ : Type _} (l : List α) (f : α → List β)
    (g : γ → β → γ) :
    ∀ init : γ, l.foldl (fun acc x => (f x).foldl g acc) init
      = (l.flatMap f).foldl g init := by
  induction l with
  | nil => intro init; rfl
  | cons a l ih =>
    intro init
    simp only [List.foldl_cons, List.flatMap_cons, List.foldl_append]
    exact ih _

theorem ingredientNeeds_eq (sels : List Selection) (pantryItems : List PantryItem) :
    ingredientNeeds sels pantryItems = (needPairs sels).foldl (needsStep pantryItems) [] := by
  unfold ingredientNeeds needPairs
  rw [← foldl_inner_eq_flatMap]
  congr 1
  funext acc s
  rw [List.foldl_map]

theorem needsInv_ingredientNeeds (sels : List Selection) (pantryItems : List PantryItem) :
    needsInv pantryItems (needPairs sels) (ingredientNeeds sels pantryItems) := by
  rw [ingredientNeeds_eq]
  have h0 : needsInv pantryItems [] [] := by
    refine ⟨List.nodup_nil, ?_, ?_⟩
    · intro e he; cases he
    · intro k
      constructor
      · intro ⟨e, he, _⟩; cases he
      · intro ⟨pr, hpr, _⟩; cases hpr
  have h1 := needsInv_foldl (needPairs sels) [] [] h0
  rw [List.nil_append] at h1
  exact h1

theorem mem_missing_iff {sels : List Selection} {pantryItems : List PantryItem}
    {m : MissingIngredient} :
    m ∈ calculateMissingIngredients sels pantryItems ↔
      ∃ e ∈ ingredientNeeds sels pantryItems, e.available < e.needed ∧
        m = ⟨e.key, e.name, e.needed - e.available, e.unit, e.available⟩ := by
  unfold calculateMissingIngredients
  constructor
  · intro hm
    obtain ⟨e, he, heq⟩ := List.mem_map.mp hm
    obtain ⟨he2, hq⟩ := List.mem_filter.mp he
    exact ⟨e, he2, of_decide_eq_true hq, heq.symm⟩
  · intro ⟨e, he, hlt, heq⟩
    rw [heq]
    exact List.mem_map_of_mem _ (List.mem_filter.mpr ⟨he, decide_eq_true hlt⟩)

/-! ## Stage-membership lemmas -/

theorem greedyGo_mem_source (t : MacroProfile) (d : ℕ) :
    ∀ (L : List RecipeWithMacros) (sel : List Selection) (cur : MacroProfile) (day slot : ℕ),
      ∀ s ∈ (greedyGo t d L sel cur day slot).1, s ∈ sel ∨ s.recipe ∈ L := by
  intro L
  induction L with
  | nil =>
    intro sel cur day slot s hs
    exact Or.inl hs
  | cons a rest ih =>
    intro sel cur day slot s hs
    rw [greedyGo] at hs
    by_cases h1 : dailyGap t.protein cur.protein d ≤ 0
    · rw [if_pos h1] at hs
      exact Or.inl hs
    · rw [if_neg h1] at hs
      by_cases h2 : 0 < clampServings (dailyGap t.protein cur.protein d) a.macros.protein
          a.availableServings 3
      · rw [if_pos h2] at hs
        rcases ih _ _ _ _ s hs with hin | hin
        · rcases List.mem_append.mp hin with hl | hl
          · exact Or.inl hl
          · have heq := List.mem_singleton.mp hl
            rw [heq]
            exact Or.inr (List.mem_cons_self a rest)
        · exact Or.inr (List.mem_cons_of_mem a hin)
      · rw [if_neg h2] at hs
        rcases ih _ _ _ _ s hs with hin | hin
        · exact Or.inl hin
        · exact Or.inr (List.mem_cons_of_mem a hin)

theorem sortByProteinDensity_mem {recipes : List RecipeWithMacros} {r : RecipeWithMacros}
    (hr : r ∈ sortByProteinDensity recipes) : r ∈ recipes ∧ 0 < r.availableServings := by
  unfold sortByProteinDensity at hr
  rw [List.mem_insertionSort] at hr
  obtain ⟨hmem, hb⟩ := List.mem_filter.mp hr
  exact ⟨hmem, of_decide_eq_true hb⟩

theorem fineTune_recipe_mem {sels : List Selection} {t : MacroProfile} {d : ℕ} {s : Selection}
    (hs : s ∈ fineTuneMacros sels t d) : ∃ s0 ∈ sels, s.recipe = s0.recipe := by
  simp only [fineTuneMacros] at hs
  obtain ⟨s0, hs0, heq⟩ := List.mem_map.mp hs
  refine ⟨s0, hs0, ?_⟩
  rw [← heq]
  split
  · rfl
  · rfl

theorem fillRemainingMacros_mem {recipes : List RecipeWithMacros} {sels : List Selection}
    {cur t : MacroProfile} {r1 r2 : ℚ} {d : ℕ} {s : Selection}
    (hs : s ∈ fillRemainingMacros recipes sels cur t r1 r2 d) :
    s ∈ sels ∨
      (s.recipe ∈ recipes ∧ (∀ u ∈ sels, u.recipe.id ≠ s.recipe.id) ∧
        0 < s.recipe.availableServings) := by
  simp only [fillRemainingMacros] at hs
  rcases List.mem_append.mp hs with hl | hl
  · rcases List.mem_append.mp hl with hl2 | hl2
    · exact Or.inl hl2
    · obtain ⟨c, cs, hcand, _, hsel⟩ := snackFor_mem hl2
      have hmemc : c ∈ (recipes.filter
          (fun r => (!((sels.map (fun s => s.recipe.id)).any (fun i => decide (i = r.id))))
            && decide (0 < r.availableServings))).filter
          (fun r => decide (r.macros.fat < r.macros.carbs)) := by
        rw [← List.mem_insertionSort
          (fun a b : RecipeWithMacros =>
            b.macros.carbs / b.macros.calories ≤ a.macros.carbs / a.macros.calories)]
        rw [hcand]
        exact List.mem_cons_self c cs
      obtain ⟨hrec, hused, hav⟩ := gapFiller_candidate_facts (List.mem_filter.mp hmemc).1
      rw [hsel]
      exact Or.inr ⟨hrec, hused, hav⟩
  · obtain ⟨c, cs, hcand, _, hsel⟩ := snackFor_mem hl
    have hmemc : c ∈ (recipes.filter
        (fun r => (!((sels.map (fun s => s.recipe.id)).any (fun i => decide (i = r.id))))
          && decide (0 < r.availableServings))).filter
        (fun r => decide (r.macros.carbs < r.macros.fat)) := by
      rw [← List.mem_insertionSort
        (fun a b : RecipeWithMacros =>
          b.macros.fat / b.macros.calories ≤ a.macros.fat / a.macros.calories)]
      rw [hcand]
      exact List.mem_cons_self c cs
    obtain ⟨hrec, hused, hav⟩ := gapFiller_candidate_facts (List.mem_filter.mp hmemc).1
    rw [hsel]
    exact Or.inr ⟨hrec, hused, hav⟩

theorem meals_availability_pos (u : UserProfile) (recipes : List Recipe)
    (pantryItems : List PantryItem) (r1 r2 : ℚ) :
    ∀ s ∈ (generatePlanPure u recipes pantryItems r1 r2).meals,
      0 < s.recipe.availableServings := by
  intro s hs
  have hmeals : (generatePlanPure u recipes pantryItems r1 r2).meals =
      fineTuneMacros
        (fillRemainingMacros (recipes.map (mkRecipeWithMacros pantryItems))
          (greedyProteinFill (recipes.map (mkRecipeWithMacros pantryItems))
            (dailyTargetsOf u) 7).1
          (greedyProteinFill (recipes.map (mkRecipeWithMacros pantryItems))
            (dailyTargetsOf u) 7).2
          (dailyTargetsOf u) r1 r2 7)
        (dailyTargetsOf u) 7 := rfl
  rw [hmeals] at hs
  obtain ⟨s0, hs0, hrec⟩ := fineTune_recipe_mem hs
  rw [hrec]
  rcases fillRemainingMacros_mem hs0 with hin | hin
  · rcases greedyGo_mem_source (dailyTargetsOf u) 7 _ [] ⟨0, 0, 0, 0⟩ 0 0 s0 hin with h0 | h0
    · cases h0
    · exact (sortByProteinDensity_mem h0).2
  · exact hin.2.2

/-- C3: with a non-negative pantry, `missingIngredients` (1) contains an
entry for ingredient `k` iff the total required quantity (sum over all
assignments of servings × per-serving requirement) strictly exceeds the
pantry quantity-on-hand (0 when absent); (2) every entry's `neededQuantity`
is exactly the total required minus the available quantity; (3) a recipe
with zero availability is never part of the final plan's meals; and (4) an
ingredient referenced by no assignment produces no shortfall entry. -/
theorem calculateMissingIngredients_correct (sels : List Selection)
    (pantryItems : List PantryItem) (k : ℕ) (u : UserProfile) (recipes : List Recipe)
    (r1 r2 : ℚ)
    (hpan : ∀ p ∈ pantryItems, 0 ≤ p.quantity) :
    ((∃ m ∈ calculateMissingIngredients sels pantryItems, m.ingredientId = k)
        ↔ pantryQty pantryItems k < totalNeeded sels k) ∧
    (∀ m ∈ calculateMissingIngredients sels pantryItems,
        m.neededQuantity
          = totalNeeded sels m.ingredientId - pantryQty pantryItems m.ingredientId) ∧
    (∀ s ∈ (generatePlanPure u recipes pantryItems r1 r2).meals,
        0 < s.recipe.availableServings) ∧
    ((∀ s ∈ sels, ∀ ri ∈ s.recipe.recipe_ingredients, ri.ingredient_id ≠ k) →
        ∀ m ∈ calculateMissingIngredients sels pantryItems, m.ingredientId ≠ k) := by
  obtain ⟨hnodup, hvals, hkeys⟩ := needsInv_ingredientNeeds sels pantryItems
  simp only [totalNeeded]
  refine ⟨⟨?_, ?_⟩, ?_, meals_availability_pos u recipes pantryItems r1 r2, ?_⟩
  · intro ⟨m, hm, hmk⟩
    obtain ⟨e, he, hlt, heq⟩ := mem_missing_iff.mp hm
    obtain ⟨hneed, havail⟩ := hvals e he
    have hek : e.key = k := by rw [heq] at hmk; exact hmk
    rw [← hek, ← hneed, ← havail]
    exact hlt
  · intro hlt
    have hne : sumNeeded (needPairs sels) k ≠ 0 :=
      ne_of_gt (lt_of_le_of_lt (pantryQty_nonneg hpan k) hlt)
    have hocc : ∃ pr ∈ needPairs sels, pr.1.ingredient_id = k := by
      by_contra hcon
      push_neg at hcon
      exact hne (sumNeeded_eq_zero hcon)
    obtain ⟨e, he, hek⟩ := (hkeys k).mpr hocc
    obtain ⟨hneed, havail⟩ := hvals e he
    refine ⟨⟨e.key, e.name, e.needed - e.available, e.unit, e.available⟩,
      mem_missing_iff.mpr ⟨e, he, ?_, rfl⟩, hek⟩
    rw [hneed, havail, hek]
    exact hlt
  · intro m hm
    obtain ⟨e, he, hlt, heq⟩ := mem_missing_iff.mp hm
    obtain ⟨hneed, havail⟩ := hvals e he
    rw [heq]
    show e.needed - e.available
      = sumNeeded (needPairs sels) e.key - pantryQty pantryItems e.key
    rw [hneed, havail]
  · intro hnone m hm hmk
    obtain ⟨e, he, hlt, heq⟩ := mem_missing_iff.mp hm
    have hek : e.key = k := by rw [heq] at hmk; exact hmk
    obtain ⟨pr, hpr, hid⟩ := (hkeys k).mp ⟨e, he, hek⟩
    obtain ⟨s, hsmem, hpr2⟩ := List.mem_flatMap.mp hpr
    obtain ⟨ri, hri, hpreq⟩ := List.mem_map.mp hpr2
    refine hnone s hsmem ri hri ?_
    rw [← hid, ← hpreq]

/-- C3 witness: the shortfall theorem at one assignment of 2 servings of the
fixture carb recipe (needs 200 g of ingredient 2) against a pantry stocking
150 g of it. -/
theorem calculateMissingIngredients_correct_witness :
    ((∃ m ∈ calculateMissingIngredients [⟨rwmB, 2, 0, "snack"⟩] [⟨2, 150⟩],
        m.ingredientId = 2)
      ↔ pantryQty [⟨2, 150⟩] 2 < totalNeeded [⟨rwmB, 2, 0, "snack"⟩] 2) ∧
    (∀ m ∈ calculateMissingIngredients [⟨rwmB, 2, 0, "snack"⟩] [⟨2, 150⟩],
        m.neededQuantity = totalNeeded [⟨rwmB, 2, 0, "snack"⟩] m.ingredientId
          - pantryQty [⟨2, 150⟩] m.ingredientId) ∧
    (∀ s ∈ (generatePlanPure ⟨2000, 30, 40, 30⟩ [] [⟨2, 150⟩] 0 0).meals,
        0 < s.recipe.availableServings) ∧
    ((∀ s ∈ [(⟨rwmB, 2, 0, "snack"⟩ : Selection)],
        ∀ ri ∈ s.recipe.recipe_ingredients, ri.ingredient_id ≠ 2) →
      ∀ m ∈ calculateMissingIngredients [⟨rwmB, 2, 0, "snack"⟩] [⟨2, 150⟩],
        m.ingredientId ≠ 2) :=
  calculateMissingIngredients_correct [⟨rwmB, 2, 0, "snack"⟩] [⟨2, 150⟩] 2
    ⟨2000, 30, 40, 30⟩ [] 0 0
    (by
      intro p hp
      simp only [List.mem_cons, List.not_mem_nil, or_false] at hp
      rw [hp]
      norm_num)

/-! ## Distinctness lemmas -/

theorem greedyGo_ids (t : MacroProfile) (d : ℕ) :
    ∀ (L : List RecipeWithMacros) (sel : List Selection) (cur : MacroProfile) (day slot : ℕ),
      ∃ w, ((greedyGo t d L sel cur day slot).1.map (fun s => s.recipe.id))
          = sel.map (fun s => s.recipe.id) ++ w ∧
        w.Sublist (L.map (fun r => r.id)) := by
  intro L
  induction L with
  | nil =>
    intro sel cur day slot
    exact ⟨[], by rw [List.append_nil]; rfl, List.nil_sublist _⟩
  | cons a rest ih =>
    intro sel cur day slot
    rw [greedyGo]
    by_cases h1 : dailyGap t.protein cur.protein d ≤ 0
    · rw [if_pos h1]
      exact ⟨[], by rw [List.append_nil], List.nil_sublist _⟩
    · rw [if_neg h1]
      by_cases h2 : 0 < clampServings (dailyGap t.protein cur.protein d) a.macros.protein
          a.availableServings 3
      · rw [if_pos h2]
        obtain ⟨w, hw, hsub⟩ := ih _ _ _ _
        refine ⟨a.id :: w, ?_, List.Sublist.cons₂ _ hsub⟩
        rw [hw, List.map_append]
        simp
      · rw [if_neg h2]
        obtain ⟨w, hw, hsub⟩ := ih _ _ _ _
        exact ⟨w, hw, List.Sublist.cons _ hsub⟩

theorem sortByProteinDensity_ids_nodup {recipes : List RecipeWithMacros}
    (h : (recipes.map (fun r => r.id)).Nodup) :
    ((sortByProteinDensity recipes).map (fun r => r.id)).Nodup := by
  unfold sortByProteinDensity
  have hperm := List.perm_insertionSort
    (fun a b : RecipeWithMacros => b.proteinDensity ≤ a.proteinDensity)
    (recipes.filter (fun r => decide (0 < r.availableServings)))
  rw [List.Perm.nodup_iff (hperm.map (fun r => r.id))]
  exact h.sublist (List.Sublist.map _ (List.filter_sublist _))

theorem fineTuneMacros_ids (sels : List Selection) (t : MacroProfile) (d : ℕ) :
    (fineTuneMacros sels t d).map (fun s => s.recipe.id)
      = sels.map (fun s => s.recipe.id) := by
  simp only [fineTuneMacros]
  rw [List.map_map]
  refine List.map_congr_left (fun s _ => ?_)
  show ((fun s : Selection => s.recipe.id) ∘ _) s = s.recipe.id
  simp only [Function.comp]
  split
  · rfl
  · rfl

/-- The id-level facts about an appended snack: its recipe is in the pool,
its id is unused by the prior selections, it has the stated macro leaning. -/
theorem snack_facts {recipes : List RecipeWithMacros} {sels : List Selection}
    {gap : ℚ} {grams : RecipeWithMacros → ℚ} {rand : ℚ} {d : ℕ} {s : Selection}
    (lean : RecipeWithMacros → Bool)
    (rel : RecipeWithMacros → RecipeWithMacros → Prop) [DecidableRel rel]
    (hs : s ∈ snackFor gap grams rand d
      (((recipes.filter
          (fun r => (!((sels.map (fun s => s.recipe.id)).any (fun i => decide (i = r.id))))
            && decide (0 < r.availableServings))).filter lean).insertionSort rel)) :
    s.recipe ∈ recipes ∧ (∀ u ∈ sels, u.recipe.id ≠ s.recipe.id) ∧
      lean s.recipe = true := by
  obtain ⟨c, cs, hcand, _, hsel⟩ := snackFor_mem hs
  have hmemc : c ∈ (recipes.filter
      (fun r => (!((sels.map (fun s => s.recipe.id)).any (fun i => decide (i = r.id))))
        && decide (0 < r.availableServings))).filter lean := by
    rw [← List.mem_insertionSort rel, hcand]
    exact List.mem_cons_self c cs
  obtain ⟨hmemav, hlean⟩ := List.mem_filter.mp hmemc
  obtain ⟨hrec, hused, _⟩ := gapFiller_candidate_facts hmemav
  rw [hsel]
  exact ⟨hrec, hused, hlean⟩

/-- C10: when the recipe pool carries pairwise-distinct recipe ids, every
recipe appears in at most one assignment of the final plan: the greedy stage
selects each recipe at most once, the gap filler only adds recipes whose ids
are not already selected and its carb- and fat-leaning candidates are
disjoint, and the fine-tuner neither adds nor duplicates assignments. -/
theorem plan_recipe_ids_nodup (u : UserProfile) (recipes : List Recipe)
    (pantryItems : List PantryItem) (r1 r2 : ℚ)
    (hids : (recipes.map Recipe.id).Nodup) :
    ((generatePlanPure u recipes pantryItems r1 r2).meals.map
      (fun s => s.recipe.id)).Nodup := by
  set R := recipes.map (mkRecipeWithMacros pantryItems) with hR
  have hRids : (R.map (fun r => r.id)).Nodup := by
    rw [hR, List.map_map]
    rw [show ((fun r : RecipeWithMacros => r.id) ∘ mkRecipeWithMacros pantryItems)
        = Recipe.id from funext (fun r => rfl)]
    exact hids
  set t := dailyTargetsOf u with ht
  set G := greedyProteinFill R t 7 with hG
  have hmeals : (generatePlanPure u recipes pantryItems r1 r2).meals =
      fineTuneMacros (fillRemainingMacros R G.1 G.2 t r1 r2 7) t 7 := rfl
  rw [hmeals, fineTuneMacros_ids]
  -- the greedy ids are a sublist of the sorted pool's ids
  obtain ⟨w, hw, hsub⟩ := greedyGo_ids t 7 (sortByProteinDensity R) [] ⟨0, 0, 0, 0⟩ 0 0
  have hGids : (G.1.map (fun s => s.recipe.id)).Nodup := by
    rw [hG]
    show ((greedyGo t 7 (sortByProteinDensity R) [] ⟨0, 0, 0, 0⟩ 0 0).1.map
      (fun s => s.recipe.id)).Nodup
    rw [hw]
    simp only [List.map_nil, List.nil_append]
    exact (sortByProteinDensity_ids_nodup hRids).sublist hsub
  -- split the filler output
  simp only [fillRemainingMacros]
  rw [List.map_append, List.map_append, List.nodup_append, List.nodup_append]
  set carbCands := ((R.filter
      (fun r => (!((G.1.map (fun s => s.recipe.id)).any (fun i => decide (i = r.id))))
        && decide (0 < r.availableServings))).filter
      (fun r => decide (r.macros.fat < r.macros.carbs))).insertionSort
      (fun a b => b.macros.carbs / b.macros.calories ≤ a.macros.carbs / a.macros.calories)
      with hcarbCands
  set fatCands := ((R.filter
      (fun r => (!((G.1.map (fun s => s.recipe.id)).any (fun i => decide (i = r.id))))
        && decide (0 < r.availableServings))).filter
      (fun r => decide (r.macros.carbs < r.macros.fat))).insertionSort
      (fun a b => b.macros.fat / b.macros.calories ≤ a.macros.fat / a.macros.calories)
      with hfatCands
  have hAfacts : ∀ s ∈ snackFor (dailyGap t.carbs G.2.carbs 7)
      (fun r => r.macros.carbs) r1 7 carbCands,
      s.recipe ∈ R ∧ (∀ u2 ∈ G.1, u2.recipe.id ≠ s.recipe.id) ∧
        decide (s.recipe.macros.fat < s.recipe.macros.carbs) = true := by
    intro s hs
    exact snack_facts (fun r => decide (r.macros.fat < r.macros.carbs)) _ hs
  have hBfacts : ∀ s ∈ snackFor (dailyGap t.fat G.2.fat 7)
      (fun r => r.macros.fat) r2 7 fatCands,
      s.recipe ∈ R ∧ (∀ u2 ∈ G.1, u2.recipe.id ≠ s.recipe.id) ∧
        decide (s.recipe.macros.carbs < s.recipe.macros.fat) = true := by
    intro s hs
    exact snack_facts (fun r => decide (r.macros.carbs < r.macros.fat)) _ hs
  have hlen1 : ∀ (gap : ℚ) (grams : RecipeWithMacros → ℚ) (rand : ℚ)
      (cands : List RecipeWithMacros),
      ((snackFor gap grams rand 7 cands).map (fun s => s.recipe.id)).Nodup := by
    intro gap grams rand cands
    have := snackFor_length_le gap grams rand 7 cands
    cases hsf : snackFor gap grams rand 7 cands with
    | nil => exact List.nodup_nil
    | cons x xs =>
      rw [hsf] at this
      cases xs with
      | nil => exact List.nodup_singleton _
      | cons y ys => simp at this
  refine ⟨⟨hGids, hlen1 _ _ _ _, ?_⟩, hlen1 _ _ _ _, ?_⟩
  · -- greedy ids disjoint from carb-snack ids
    intro i hi hi2
    obtain ⟨s0, hs0, hs0id⟩ := List.mem_map.mp hi
    obtain ⟨s1, hs1, hs1id⟩ := List.mem_map.mp hi2
    exact (hAfacts s1 hs1).2.1 s0 hs0 (by rw [hs0id, hs1id])
  · -- (greedy ++ carb) ids disjoint from fat-snack ids
    intro i hi hi2
    obtain ⟨s1, hs1, hs1id⟩ := List.mem_map.mp hi2
    rcases List.mem_append.mp hi with hl | hl
    · obtain ⟨s0, hs0, hs0id⟩ := List.mem_map.mp hl
      exact (hBfacts s1 hs1).2.1 s0 hs0 (by rw [hs0id, hs1id])
    · obtain ⟨s0, hs0, hs0id⟩ := List.mem_map.mp hl
      obtain ⟨hArec, _, hAlean⟩ := hAfacts s0 hs0
      obtain ⟨hBrec, _, hBlean⟩ := hBfacts s1 hs1
      have heqrec : s0.recipe = s1.recipe :=
        List.inj_on_of_nodup_map hRids hArec hBrec (by rw [hs0id, hs1id])
      have hA := of_decide_eq_true hAlean
      have hB := of_decide_eq_true hBlean
      rw [heqrec] at hA
      exact absurd (lt_trans hA hB) (lt_irrefl _)

/-- C10 witness: the distinctness theorem at the concrete two-recipe pool
(ids 1 and 2). -/
theorem plan_recipe_ids_nodup_witness :
    ((generatePlanPure ⟨2000, 14/10, 40, 9⟩
      [⟨1, [⟨1, 100, "g", ⟨"a", 500, 50, 10, 10⟩⟩]⟩,
       ⟨2, [⟨2, 100, "g", ⟨"b", 400, 5, 80, 5⟩⟩]⟩]
      [⟨1, 1000⟩, ⟨2, 1000⟩] 0 0).meals.map (fun s => s.recipe.id)).Nodup :=
  plan_recipe_ids_nodup ⟨2000, 14/10, 40, 9⟩
    [⟨1, [⟨1, 100, "g", ⟨"a", 500, 50, 10, 10⟩⟩]⟩,
     ⟨2, [⟨2, 100, "g", ⟨"b", 400, 5, 80, 5⟩⟩]⟩]
    [⟨1, 1000⟩, ⟨2, 1000⟩] 0 0 (by simp)

/-! ## Weekly-totals lemmas -/

/-- The per-assignment macro sums over a selection list, as a profile. -/
def sumProfile (sels : List Selection) : MacroProfile :=
  { calories := reduceMacro sels MacroProfile.calories
    protein := reduceMacro sels MacroProfile.protein
    carbs := reduceMacro sels MacroProfile.carbs
    fat := reduceMacro sels MacroProfile.fat }

theorem reduceMacro_append_single (sels : List Selection) (s : Selection)
    (f : MacroProfile → ℚ) :
    reduceMacro (sels ++ [s]) f = reduceMacro sels f + f s.recipe.macros * (s.servings : ℚ) := by
  unfold reduceMacro
  rw [List.foldl_append]
  rfl

theorem greedyGo_accum (t : MacroProfile) (d : ℕ) :
    ∀ (L : List RecipeWithMacros) (sel : List Selection) (cur : MacroProfile) (day slot : ℕ),
      cur = sumProfile sel →
      (greedyGo t d L sel cur day slot).2 = sumProfile (greedyGo t d L sel cur day slot).1 := by
  intro L
  induction L with
  | nil =>
    intro sel cur day slot h
    exact h
  | cons a rest ih =>
    intro sel cur day slot h
    rw [greedyGo]
    by_cases h1 : dailyGap t.protein cur.protein d ≤ 0
    · rw [if_pos h1]
      exact h
    · rw [if_neg h1]
      by_cases h2 : 0 < clampServings (dailyGap t.protein cur.protein d) a.macros.protein
          a.availableServings 3
      · rw [if_pos h2]
        refine ih _ _ _ _ ?_
        rw [h]
        unfold sumProfile
        simp only [reduceMacro_append_single]
      · rw [if_neg h2]
        exact ih _ _ _ _ h

/-- C4 amended: the weekly totals stored with the plan are the rounded
accumulated macros of the greedy protein-fill stage only — the sums of
servings × per-serving macros over the protein-stage assignments — and do
not include gap-filler additions or fine-tuner adjustments. -/
theorem weeklyTotals_from_greedy_stage (u : UserProfile) (recipes : List Recipe)
    (pantryItems : List PantryItem) (r1 r2 : ℚ) :
    (generatePlanPure u recipes pantryItems r1 r2).total_kcal
        = round (reduceMacro (greedyProteinFill (recipes.map (mkRecipeWithMacros pantryItems))
            (dailyTargetsOf u) 7).1 MacroProfile.calories) ∧
    (generatePlanPure u recipes pantryItems r1 r2).total_protein
        = round (reduceMacro (greedyProteinFill (recipes.map (mkRecipeWithMacros pantryItems))
            (dailyTargetsOf u) 7).1 MacroProfile.protein) ∧
    (generatePlanPure u recipes pantryItems r1 r2).total_carbs
        = round (reduceMacro (greedyProteinFill (recipes.map (mkRecipeWithMacros pantryItems))
            (dailyTargetsOf u) 7).1 MacroProfile.carbs) ∧
    (generatePlanPure u recipes pantryItems r1 r2).total_fat
        = round (reduceMacro (greedyProteinFill (recipes.map (mkRecipeWithMacros pantryItems))
            (dailyTargetsOf u) 7).1 MacroProfile.fat) := by
  have hacc := greedyGo_accum (dailyTargetsOf u) 7
    (sortByProteinDensity (recipes.map (mkRecipeWithMacros pantryItems))) [] ⟨0, 0, 0, 0⟩ 0 0
    (by unfold sumProfile reduceMacro; rfl)
  have h1 : (generatePlanPure u recipes pantryItems r1 r2).total_kcal
      = round (greedyProteinFill (recipes.map (mkRecipeWithMacros pantryItems))
          (dailyTargetsOf u) 7).2.calories := rfl
  have h2 : (generatePlanPure u recipes pantryItems r1 r2).total_protein
      = round (greedyProteinFill (recipes.map (mkRecipeWithMacros pantryItems))
          (dailyTargetsOf u) 7).2.protein := rfl
  have h3 : (generatePlanPure u recipes pantryItems r1 r2).total_carbs
      = round (greedyProteinFill (recipes.map (mkRecipeWithMacros pantryItems))
          (dailyTargetsOf u) 7).2.carbs := rfl
  have h4 : (generatePlanPure u recipes pantryItems r1 r2).total_fat
      = round (greedyProteinFill (recipes.map (mkRecipeWithMacros pantryItems))
          (dailyTargetsOf u) 7).2.fat := rfl
  have hgp : (greedyProteinFill (recipes.map (mkRecipeWithMacros pantryItems))
      (dailyTargetsOf u) 7).2
      = sumProfile (greedyProteinFill (recipes.map (mkRecipeWithMacros pantryItems))
          (dailyTargetsOf u) 7).1 := hacc
  exact ⟨by rw [h1, hgp]; rfl, by rw [h2, hgp]; rfl, by rw [h3, hgp]; rfl,
    by rw [h4, hgp]; rfl⟩

/-- User targets for the two-recipe fixture: 2000 kcal, 1.4% protein
(7 g/day), 40% carbs (200 g/day), 9% fat (20 g/day). -/
def uAB : UserProfile := ⟨2000, 14/10, 40, 9⟩

/-- The raw recipe behind `rwmA`. -/
def recA : Recipe := ⟨1, [⟨1, 100, "g", ⟨"a", 500, 50, 10, 10⟩⟩]⟩

/-- The raw recipe behind `rwmB`. -/
def recB : Recipe := ⟨2, [⟨2, 100, "g", ⟨"b", 400, 5, 80, 5⟩⟩]⟩

/-- A pantry stocking 1000 g of both fixture ingredients. -/
def pantryAB : List PantryItem := [⟨1, 1000⟩, ⟨2, 1000⟩]

/-- C4 counterexample: on the two-recipe fixture the greedy stage selects
1 serving of recipe 1 (meeting the 7 g protein target), the gap filler then
appends 2 servings of recipe 2, and the fine-tuner changes nothing — yet the
stored weekly total is 500 kcal, the greedy-stage accumulator, not the
1300 kcal summed over all final assignments. -/
theorem weeklyTotals_counterexample :
    (generatePlanPure uAB [recA, recB] pantryAB 0 0).total_kcal = 500 ∧
    round (reduceMacro (generatePlanPure uAB [recA, recB] pantryAB 0 0).meals
      MacroProfile.calories) = 1300 ∧
    (generatePlanPure uAB [recA, recB] pantryAB 0 0).total_kcal
      ≠ round (reduceMacro (generatePlanPure uAB [recA, recB] pantryAB 0 0).meals
          MacroProfile.calories) := by
  have hc1 : (⌈(7 : ℚ) / 50⌉ : ℤ) = 1 := by norm_num [Int.ceil_eq_iff]
  have hc2 : (⌈(139 : ℚ) / 56⌉ : ℤ) = 3 := by norm_num [Int.ceil_eq_iff]
  have htgt : dailyTargetsOf uAB = ⟨2000, 7, 200, 20⟩ := by
    norm_num [dailyTargetsOf, uAB, round_eq]
  have hmk : [recA, recB].map (mkRecipeWithMacros pantryAB) = [rwmA, rwmB] := by
    norm_num [mkRecipeWithMacros, recA, recB, rwmA, rwmB, pantryAB,
      calculateRecipeMacros, calculateAvailableServings, availStep, List.find?,
      WithTop.untop', round_eq, List.foldl]
    rfl
  have hgreedy : greedyProteinFill [rwmA, rwmB] ⟨2000, 7, 200, 20⟩ 7 =
      ([⟨rwmA, 1, 0, "breakfast"⟩], ⟨500, 50, 10, 10⟩) := by
    norm_num [greedyProteinFill, sortByProteinDensity, List.insertionSort,
      List.orderedInsert, rwmA, rwmB, greedyGo, dailyGap, mealSlots, clampServings,
      hc1, List.filter]
  have hfill : fillRemainingMacros [rwmA, rwmB] [⟨rwmA, 1, 0, "breakfast"⟩]
      ⟨500, 50, 10, 10⟩ ⟨2000, 7, 200, 20⟩ 0 0 7 =
      [⟨rwmA, 1, 0, "breakfast"⟩, ⟨rwmB, 2, 0, "snack"⟩] := by
    norm_num [fillRemainingMacros, snackFor, rwmA, rwmB, dailyGap, clampServings,
      List.insertionSort, List.orderedInsert, hc2, List.filter, min_def,
      Int.ceil_le, Int.le_ceil_iff]
  have htune : fineTuneMacros [⟨rwmA, 1, 0, "breakfast"⟩, ⟨rwmB, 2, 0, "snack"⟩]
      ⟨2000, 7, 200, 20⟩ 7 =
      [⟨rwmA, 1, 0, "breakfast"⟩, ⟨rwmB, 2, 0, "snack"⟩] := by
    norm_num [fineTuneMacros, accumulateMacros, rwmA, rwmB, round_eq, List.foldl,
      abs_sub_comm, abs_of_nonneg, max_def]
  have htot : (generatePlanPure uAB [recA, recB] pantryAB 0 0).total_kcal = 500 := by
    rw [generatePlanPure, hmk, htgt, hgreedy]
    norm_num [round_eq]
  have hsum : round (reduceMacro (generatePlanPure uAB [recA, recB] pantryAB 0 0).meals
      MacroProfile.calories) = 1300 := by
    rw [generatePlanPure, hmk, htgt, hgreedy]
    simp only
    rw [hfill, htune]
    norm_num [reduceMacro, rwmA, rwmB, List.foldl, round_eq]
  refine ⟨htot, hsum, ?_⟩
  rw [htot, hsum]
  norm_num

/-! ## Target-validation lemmas -/

/-- C6 counterexample: with a protein percentage of 200 (outside [0,100]) the
engine raises no error and does not fail fast: all planning stages run and
the returned plan contains an assignment (2 servings of recipe 1). -/
theorem invalid_target_no_failfast_counterexample :
    100 < (⟨2000, 200, 40, 9⟩ : UserProfile).protein_pct ∧
    (generatePlanPure ⟨2000, 200, 40, 9⟩ [recA] [⟨1, 1000⟩] 0 0).meals
      = [⟨rwmA, 2, 0, "breakfast"⟩] := by
  have hc1 : (⌈(1000 : ℚ) / 50⌉ : ℤ) = 20 := by norm_num [Int.ceil_eq_iff]
  have htgt : dailyTargetsOf ⟨2000, 200, 40, 9⟩ = ⟨2000, 1000, 200, 20⟩ := by
    norm_num [dailyTargetsOf, round_eq]
  have hmk : [recA].map (mkRecipeWithMacros [⟨1, 1000⟩]) = [rwmA] := by
    norm_num [mkRecipeWithMacros, recA, rwmA,
      calculateRecipeMacros, calculateAvailableServings, availStep, List.find?,
      WithTop.untop', round_eq, List.foldl]
    rfl
  have hgreedy : greedyProteinFill [rwmA] ⟨2000, 1000, 200, 20⟩ 7 =
      ([⟨rwmA, 3, 0, "breakfast"⟩], ⟨1500, 150, 30, 30⟩) := by
    norm_num [greedyProteinFill, sortByProteinDensity, List.insertionSort,
      List.orderedInsert, rwmA, greedyGo, dailyGap, mealSlots, clampServings,
      hc1, List.filter, min_def]
  have hfill : fillRemainingMacros [rwmA] [⟨rwmA, 3, 0, "breakfast"⟩]
      ⟨1500, 150, 30, 30⟩ ⟨2000, 1000, 200, 20⟩ 0 0 7 =
      [⟨rwmA, 3, 0, "breakfast"⟩] := by
    norm_num [fillRemainingMacros, snackFor, rwmA, dailyGap, clampServings,
      List.insertionSort, List.orderedInsert, List.filter]
  have htune : fineTuneMacros [⟨rwmA, 3, 0, "breakfast"⟩] ⟨2000, 1000, 200, 20⟩ 7 =
      [⟨rwmA, 2, 0, "breakfast"⟩] := by
    norm_num [fineTuneMacros, accumulateMacros, rwmA, round_eq, List.foldl,
      abs_sub_comm, abs_of_nonneg, max_def]
  refine ⟨by norm_num, ?_⟩
  rw [generatePlanPure, hmk, htgt, hgreedy]
  simp only
  rw [hfill, htune]

/-- C6 amended: the engine performs no fail-fast validation of the targets:
for every input — including those with an energy target ≤ 0 or a macro
percentage outside [0,100] — no error is raised and the plan is the result
of running all five planning stages on the unvalidated targets. -/
theorem generatePlan_no_validation (u : UserProfile) (recipes : List Recipe)
    (pantryItems : List PantryItem) (r1 r2 : ℚ)
    (h : u.kcal_target ≤ 0 ∨ u.protein_pct < 0 ∨ 100 < u.protein_pct ∨
      u.carb_pct < 0 ∨ 100 < u.carb_pct ∨ u.fat_pct < 0 ∨ 100 < u.fat_pct) :
    (generatePlanPure u recipes pantryItems r1 r2).meals =
      fineTuneMacros
        (fillRemainingMacros (recipes.map (mkRecipeWithMacros pantryItems))
          (greedyProteinFill (recipes.map (mkRecipeWithMacros pantryItems))
            (dailyTargetsOf u) 7).1
          (greedyProteinFill (recipes.map (mkRecipeWithMacros pantryItems))
            (dailyTargetsOf u) 7).2
          (dailyTargetsOf u) r1 r2 7)
        (dailyTargetsOf u) 7 := rfl

/-- C6 amended witness: the no-validation theorem at a zero energy target. -/
theorem generatePlan_no_validation_witness :
    (generatePlanPure ⟨0, 30, 40, 30⟩ [recA] [⟨1, 1000⟩] 0 0).meals =
      fineTuneMacros
        (fillRemainingMacros ([recA].map (mkRecipeWithMacros [⟨1, 1000⟩]))
          (greedyProteinFill ([recA].map (mkRecipeWithMacros [⟨1, 1000⟩]))
            (dailyTargetsOf ⟨0, 30, 40, 30⟩) 7).1
          (greedyProteinFill ([recA].map (mkRecipeWithMacros [⟨1, 1000⟩]))
            (dailyTargetsOf ⟨0, 30, 40, 30⟩) 7).2
          (dailyTargetsOf ⟨0, 30, 40, 30⟩) 0 0 7)
        (dailyTargetsOf ⟨0, 30, 40, 30⟩) 7 :=
  generatePlan_no_validation ⟨0, 30, 40, 30⟩ [recA] [⟨1, 1000⟩] 0 0
    (Or.inl (by norm_num))

/-! ## Accuracy-boundary lemmas -/

/-- User targets for the accuracy fixture: 1000 kcal, 40% protein
(100 g/day), no carb or fat target. -/
def uC9 : UserProfile := ⟨1000, 40, 0, 0⟩

/-- First accuracy-fixture recipe: 3503 kcal and 10 g protein per serving. -/
def recC9A : Recipe := ⟨1, [⟨1, 100, "g", ⟨"a", 3503, 10, 0, 0⟩⟩]⟩

/-- Second accuracy-fixture recipe: 3504 kcal and 10 g protein per serving. -/
def recC9B : Recipe := ⟨2, [⟨2, 100, "g", ⟨"b", 3504, 10, 0, 0⟩⟩]⟩

/-- A pantry allowing 3 servings of each accuracy-fixture recipe. -/
def pantryC9 : List PantryItem := [⟨1, 300⟩, ⟨2, 300⟩]

/-- `recC9A` with computed macros, density and availability. -/
def rwmC9A : RecipeWithMacros :=
  ⟨1, [⟨1, 100, "g", ⟨"a", 3503, 10, 0, 0⟩⟩], ⟨3503, 10, 0, 0⟩, 1000 / 3503, 3⟩

/-- `recC9B` with computed macros, density and availability. -/
def rwmC9B : RecipeWithMacros :=
  ⟨2, [⟨2, 100, "g", ⟨"b", 3504, 10, 0, 0⟩⟩], ⟨3504, 10, 0, 0⟩, 1000 / 3504, 3⟩

/-- C9 counterexample: on the accuracy fixture the final plan's daily-average
calories (2002) exceed twice the 1000 kcal target, yet
`macroAccuracy.calories` is 0, not negative — `Math.round((1 − 1.002) × 100)
= Math.round(−0.2) = 0`. -/
theorem accuracy_zero_beyond_double_counterexample :
    2 * (dailyTargetsOf uC9).calories
        < reduceMacro (generatePlanPure uC9 [recC9A, recC9B] pantryC9 0 0).meals
            MacroProfile.calories / 7 ∧
    (generatePlanPure uC9 [recC9A, recC9B] pantryC9 0 0).macroAccuracy.calories = 0 := by
  have hc1 : (⌈(100 : ℚ) / 10⌉ : ℤ) = 10 := by norm_num [Int.ceil_eq_iff]
  have hc2 : (⌈(67 : ℚ) / 7⌉ : ℤ) = 10 := by norm_num [Int.ceil_eq_iff]
  have htgt : dailyTargetsOf uC9 = ⟨1000, 100, 0, 0⟩ := by
    norm_num [dailyTargetsOf, uC9, round_eq]
  have hmk : [recC9A, recC9B].map (mkRecipeWithMacros pantryC9) = [rwmC9A, rwmC9B] := by
    norm_num [mkRecipeWithMacros, recC9A, recC9B, rwmC9A, rwmC9B, pantryC9,
      calculateRecipeMacros, calculateAvailableServings, availStep, List.find?,
      WithTop.untop', round_eq, List.foldl]
    rfl
  have hgreedy : greedyProteinFill [rwmC9A, rwmC9B] ⟨1000, 100, 0, 0⟩ 7 =
      ([⟨rwmC9A, 3, 0, "breakfast"⟩, ⟨rwmC9B, 3, 0, "lunch"⟩], ⟨21021, 60, 0, 0⟩) := by
    norm_num [greedyProteinFill, sortByProteinDensity, List.insertionSort,
      List.orderedInsert, rwmC9A, rwmC9B, greedyGo, dailyGap, mealSlots, clampServings,
      hc1, hc2, List.filter, min_def, mul_comm]
  have hfill : fillRemainingMacros [rwmC9A, rwmC9B]
      [⟨rwmC9A, 3, 0, "breakfast"⟩, ⟨rwmC9B, 3, 0, "lunch"⟩]
      ⟨21021, 60, 0, 0⟩ ⟨1000, 100, 0, 0⟩ 0 0 7 =
      [⟨rwmC9A, 3, 0, "breakfast"⟩, ⟨rwmC9B, 3, 0, "lunch"⟩] := by
    norm_num [fillRemainingMacros, snackFor, rwmC9A, rwmC9B, dailyGap, clampServings,
      List.insertionSort, List.orderedInsert, List.filter]
  have htune : fineTuneMacros [⟨rwmC9A, 3, 0, "breakfast"⟩, ⟨rwmC9B, 3, 0, "lunch"⟩]
      ⟨1000, 100, 0, 0⟩ 7 =
      [⟨rwmC9A, 2, 0, "breakfast"⟩, ⟨rwmC9B, 2, 0, "lunch"⟩] := by
    norm_num [fineTuneMacros, accumulateMacros, rwmC9A, rwmC9B, round_eq, List.foldl,
      abs_sub_comm, abs_of_nonneg, max_def]
  constructor
  · rw [generatePlanPure, hmk, htgt, hgreedy]
    simp only
    rw [hfill, htune]
    norm_num [reduceMacro, rwmC9A, rwmC9B, List.foldl]
  · rw [generatePlanPure, hmk, htgt, hgreedy]
    simp only
    rw [hfill, htune]
    norm_num [accuracyOf, reduceMacro, rwmC9A, rwmC9B, List.foldl, round_eq,
      abs_of_nonneg]

theorem round_acc_eq_100_iff {d : ℚ} (hd : 0 ≤ d) :
    round ((1 - d) * 100) = 100 ↔ d ≤ 1 / 200 := by
  rw [round_eq, Int.floor_eq_iff]
  constructor
  · intro ⟨h1, _⟩
    push_cast at h1
    linarith
  · intro hle
    constructor
    · push_cast
      linarith
    · push_cast
      linarith

theorem round_acc_neg_iff {d : ℚ} :
    round ((1 - d) * 100) < 0 ↔ 201 / 200 < d := by
  rw [round_eq]
  rw [show ((0 : ℤ)) = ((0 : ℤ)) from rfl]
  constructor
  · intro hlt
    have := Int.floor_lt.mp hlt
    push_cast at this
    linarith
  · intro hgt
    refine Int.floor_lt.mpr ?_
    push_cast
    linarith

/-- C9 amended: for every plan with a positive calorie target and a
non-negative actual daily average, `macroAccuracy.calories` is the raw
unclamped `round((1 − |actual − target| / target) × 100)`; it equals 100
exactly when |actual − target| ≤ target/200 (in particular when actual
equals the target), and it is negative exactly when the actual exceeds
2.005 × target. -/
theorem macroAccuracy_calories_boundary (u : UserProfile) (recipes : List Recipe)
    (pantryItems : List PantryItem) (r1 r2 : ℚ)
    (ht : 0 < (dailyTargetsOf u).calories)
    (ha : 0 ≤ reduceMacro (generatePlanPure u recipes pantryItems r1 r2).meals
      MacroProfile.calories / 7) :
    (generatePlanPure u recipes pantryItems r1 r2).macroAccuracy.calories
        = round ((1 - |reduceMacro (generatePlanPure u recipes pantryItems r1 r2).meals
              MacroProfile.calories / 7 - (dailyTargetsOf u).calories|
            / (dailyTargetsOf u).calories) * 100) ∧
    ((generatePlanPure u recipes pantryItems r1 r2).macroAccuracy.calories = 100
      ↔ |reduceMacro (generatePlanPure u recipes pantryItems r1 r2).meals
            MacroProfile.calories / 7 - (dailyTargetsOf u).calories|
          ≤ (dailyTargetsOf u).calories / 200) ∧
    ((generatePlanPure u recipes pantryItems r1 r2).macroAccuracy.calories < 0
      ↔ 401 / 200 * (dailyTargetsOf u).calories
          < reduceMacro (generatePlanPure u recipes pantryItems r1 r2).meals
              MacroProfile.calories / 7) := by
  set a := reduceMacro (generatePlanPure u recipes pantryItems r1 r2).meals
    MacroProfile.calories / 7 with hadef
  set t := (dailyTargetsOf u).calories with htdef
  have hacc : (generatePlanPure u recipes pantryItems r1 r2).macroAccuracy.calories
      = round ((1 - |a - t| / t) * 100) := rfl
  have hd : 0 ≤ |a - t| / t := div_nonneg (abs_nonneg _) ht.le
  refine ⟨hacc, ?_, ?_⟩
  · rw [hacc, round_acc_eq_100_iff hd, div_le_div_iff₀ ht (by norm_num : (0:ℚ) < 200)]
    constructor
    · intro hle
      linarith
    · intro hle
      linarith
  · rw [hacc, round_acc_neg_iff, lt_div_iff₀ ht]
    constructor
    · intro hgt
      rcases abs_cases (a - t) with ⟨heq, _⟩ | ⟨heq, hneg⟩
      · rw [heq] at hgt
        linarith
      · rw [heq] at hgt
        nlinarith
    · intro hgt
      rcases abs_cases (a - t) with ⟨heq, _⟩ | ⟨heq, _⟩
      · rw [heq]
        linarith
      · rw [heq]
        nlinarith

/-- C9 amended witness: the boundary theorem at an empty recipe pool and a
1000 kcal target — the actual daily average is 0, the accuracy is
`round((1 − 1) × 100) = 0`, neither 100 nor negative. -/
theorem macroAccuracy_calories_boundary_witness :
    (generatePlanPure ⟨1000, 30, 40, 30⟩ [] [] 0 0).macroAccuracy.calories
        = round ((1 - |reduceMacro (generatePlanPure ⟨1000, 30, 40, 30⟩ [] [] 0 0).meals
              MacroProfile.calories / 7 - (dailyTargetsOf ⟨1000, 30, 40, 30⟩).calories|
            / (dailyTargetsOf ⟨1000, 30, 40, 30⟩).calories) * 100) ∧
    ((generatePlanPure ⟨1000, 30, 40, 30⟩ [] [] 0 0).macroAccuracy.calories = 100
      ↔ |reduceMacro (generatePlanPure ⟨1000, 30, 40, 30⟩ [] [] 0 0).meals
            MacroProfile.calories / 7 - (dailyTargetsOf ⟨1000, 30, 40, 30⟩).calories|
          ≤ (dailyTargetsOf ⟨1000, 30, 40, 30⟩).calories / 200) ∧
    ((generatePlanPure ⟨1000, 30, 40, 30⟩ [] [] 0 0).macroAccuracy.calories < 0
      ↔ 401 / 200 * (dailyTargetsOf ⟨1000, 30, 40, 30⟩).calories
          < reduceMacro (generatePlanPure ⟨1000, 30, 40, 30⟩ [] [] 0 0).meals
              MacroProfile.calories / 7) :=
  macroAccuracy_calories_boundary ⟨1000, 30, 40, 30⟩ [] [] 0 0
    (by norm_num [dailyTargetsOf]) (by norm_num [reduceMacro, List.foldl])

end MacroTetris
